import Mathlib

/-!
Verification of the GTM desired-state reconciliation engine
(`src/managers/workflow_manager.py`, `src/managers/container_manager.py`,
`src/utils/helpers.py`, `src/managers/tag_manager.py`,
`src/managers/trigger_manager.py`).

Python values are embedded as the `Value` type (None / bool / int / str /
list / dict); Python dicts are association lists in insertion order with
unique keys, matching Python dict semantics (`pyInsert` overwrites in
place, otherwise appends).  Remote collaborators are an explicit
environment of current collections and response oracles; every remote
call the core issues is recorded in an `Op` trace.
-/

set_option autoImplicit false

deriving instance DecidableEq for Except

namespace GTM

/-- Embedding of the dynamic (JSON-ish) Python values the managers operate on. -/
inductive Value where
  | null : Value
  | bool : Bool → Value
  | int : Int → Value
  | str : String → Value
  | list : List Value → Value
  | dict : List (String × Value) → Value

mutual

/-- Structural equality on embedded values (Python `==`). -/
def Value.beq : Value → Value → Bool
  | .null, .null => true
  | .bool a, .bool b => a == b
  | .int a, .int b => a == b
  | .str a, .str b => a == b
  | .list xs, .list ys => beqList xs ys
  | .dict xs, .dict ys => beqKvs xs ys
  | _, _ => false

/-- Elementwise structural equality of value lists. -/
def beqList : List Value → List Value → Bool
  | [], [] => true
  | x :: xs, y :: ys => Value.beq x y && beqList xs ys
  | _, _ => false

/-- Entrywise structural equality of key-value lists. -/
def beqKvs : List (String × Value) → List (String × Value) → Bool
  | [], [] => true
  | (k, v) :: xs, (l, w) :: ys => k == l && Value.beq v w && beqKvs xs ys
  | _, _ => false

end

instance : BEq Value := ⟨Value.beq⟩

mutual

theorem Value.beq_iff : ∀ a b : Value, Value.beq a b = true ↔ a = b
  | .null, .null => by simp [Value.beq]
  | .bool a, .bool b => by simp [Value.beq]
  | .int a, .int b => by simp [Value.beq]
  | .str a, .str b => by simp [Value.beq]
  | .list xs, .list ys => by
      simp only [Value.beq, beqList_iff xs ys, Value.list.injEq]
  | .dict xs, .dict ys => by
      simp only [Value.beq, beqKvs_iff xs ys, Value.dict.injEq]
  | .null, .bool _ | .null, .int _ | .null, .str _ | .null, .list _ | .null, .dict _
  | .bool _, .null | .bool _, .int _ | .bool _, .str _ | .bool _, .list _ | .bool _, .dict _
  | .int _, .null | .int _, .bool _ | .int _, .str _ | .int _, .list _ | .int _, .dict _
  | .str _, .null | .str _, .bool _ | .str _, .int _ | .str _, .list _ | .str _, .dict _
  | .list _, .null | .list _, .bool _ | .list _, .int _ | .list _, .str _ | .list _, .dict _
  | .dict _, .null | .dict _, .bool _ | .dict _, .int _ | .dict _, .str _ | .dict _, .list _ => by
      simp [Value.beq]

theorem beqList_iff : ∀ xs ys : List Value, beqList xs ys = true ↔ xs = ys
  | [], [] => by simp [beqList]
  | x :: xs, y :: ys => by
      simp [beqList, Value.beq_iff x y, beqList_iff xs ys]
  | [], _ :: _ => by simp [beqList]
  | _ :: _, [] => by simp [beqList]

theorem beqKvs_iff : ∀ xs ys : List (String × Value), beqKvs xs ys = true ↔ xs = ys
  | [], [] => by simp [beqKvs]
  | (k, v) :: xs, (l, w) :: ys => by
      simp [beqKvs, Value.beq_iff v w, beqKvs_iff xs ys, and_assoc]
  | [], _ :: _ => by simp [beqKvs]
  | _ :: _, [] => by simp [beqKvs]

end

instance : DecidableEq Value := fun a b => decidable_of_iff _ (Value.beq_iff a b)

instance : LawfulBEq Value where
  eq_of_beq h := (Value.beq_iff _ _).mp h
  rfl := (Value.beq_iff _ _).mpr rfl

/-- A Python `dict[str, Any]` in insertion order. -/
abbrev Dict := List (String × Value)

/-- `isinstance(v, dict)`. -/
def Value.isDict : Value → Bool
  | .dict _ => true
  | _ => false

/-- Python truthiness (`bool(v)`) for the embedded values. -/
def pyTruthy : Value → Bool
  | .null => false
  | .bool b => b
  | .int n => n != 0
  | .str s => s != ""
  | .list xs => !xs.isEmpty
  | .dict kvs => !kvs.isEmpty

/-- `a or b` for Python values: `a` when truthy, else `b`. -/
def pyOr (a b : Value) : Value := if pyTruthy a then a else b

/-! ### String primitives (`str.strip`, `str.lower`, string comparison) -/

/-- The whitespace characters Python's `str.strip()` removes. -/
def pyWhitespace (c : Char) : Bool :=
  c == ' ' || c == '\t' || c == '\n' || c == '\r' || c.toNat == 11 || c.toNat == 12

/-- Python `str.strip()`. -/
def pyStrip (s : String) : String :=
  String.mk (((s.data.dropWhile pyWhitespace).reverse.dropWhile pyWhitespace).reverse)

/-- Python `str.lower()` (ASCII range; all names in this development are ASCII). -/
def pyLowerChar (c : Char) : Char :=
  if 65 ≤ c.toNat ∧ c.toNat ≤ 90 then Char.ofNat (c.toNat + 32) else c

/-- Python `str.lower()`. -/
def pyLower (s : String) : String := String.mk (s.data.map pyLowerChar)

/-- `_lower` in `workflow_manager.py`: `s.strip().lower()`. -/
def pyNorm (s : String) : String := pyLower (pyStrip s)

/-- Code-point lexicographic `<` on character lists (Python string `<`). -/
def strLtL : List Char → List Char → Bool
  | [], [] => false
  | _ :: _, [] => false
  | [], _ :: _ => true
  | a :: as, b :: bs =>
      if a.toNat < b.toNat then true
      else if a.toNat = b.toNat then strLtL as bs
      else false

/-- Python string `<` (code-point lexicographic). -/
def strLt (a b : String) : Bool := strLtL a.data b.data

/-- Python string `<=`, the order `sorted` produces. -/
def strLe (a b : String) : Bool := !(strLt b a)

theorem strLtL_asymm : ∀ x y, strLtL x y = true → strLtL y x = false
  | [], [], h => by simp [strLtL] at h
  | _ :: _, [], h => by simp [strLtL] at h
  | [], _ :: _, _ => by simp [strLtL]
  | a :: as, b :: bs, h => by
      simp only [strLtL] at h ⊢
      by_cases h1 : a.toNat < b.toNat
      · rw [if_neg (by omega), if_neg (by omega)]
      · by_cases h2 : a.toNat = b.toNat
        · rw [if_neg h1, if_pos h2] at h
          rw [if_neg (by omega), if_pos (by omega)]
          exact strLtL_asymm as bs h
        · rw [if_neg h1, if_neg h2] at h
          exact absurd h (by simp)

theorem strLtL_conn : ∀ x y z, strLtL x z = true → strLtL x y = true ∨ strLtL y z = true
  | x, _, [], h => by cases x <;> simp [strLtL] at h
  | [], [], _ :: _, _ => Or.inr (by simp [strLtL])
  | [], _ :: _, _, _ => Or.inl (by simp [strLtL])
  | _ :: _, [], _ :: _, _ => Or.inr (by simp [strLtL])
  | a :: as, b :: bs, c :: cs, h => by
      simp only [strLtL] at h ⊢
      by_cases h1 : a.toNat < c.toNat
      · by_cases h2 : a.toNat < b.toNat
        · exact Or.inl (by rw [if_pos h2])
        · exact Or.inr (by rw [if_pos (by omega)])
      · by_cases h2 : a.toNat = c.toNat
        · rw [if_neg h1, if_pos h2] at h
          by_cases h3 : a.toNat < b.toNat
          · exact Or.inl (by rw [if_pos h3])
          · by_cases h4 : b.toNat < c.toNat
            · exact Or.inr (by rw [if_pos h4])
            · rcases strLtL_conn as bs cs h with h5 | h5
              · exact Or.inl (by rw [if_neg h3, if_pos (by omega), h5])
              · exact Or.inr (by rw [if_neg h4, if_pos (by omega), h5])
        · rw [if_neg h1, if_neg h2] at h
          exact absurd h (by simp)

theorem strLe_total (a b : String) : strLe a b = true ∨ strLe b a = true := by
  by_cases h : strLtL b.data a.data = true
  · exact Or.inr (by simp [strLe, strLt, strLtL_asymm _ _ h])
  · exact Or.inl (by simp [strLe, strLt]; exact Bool.of_not_eq_true h)

theorem strLe_trans (a b c : String) (h1 : strLe a b = true) (h2 : strLe b c = true) :
    strLe a c = true := by
  simp only [strLe, strLt, Bool.not_eq_true'] at *
  cases hca : strLtL c.data a.data with
  | false => rfl
  | true =>
      rcases strLtL_conn c.data b.data a.data hca with h | h
      · rw [h] at h2; cases h2
      · rw [h] at h1; cases h1

/-- Case-insensitive string order (Python `sorted(key=lambda x: x.lower())`). -/
def ciLe (a b : String) : Bool := strLe (pyLower a) (pyLower b)

/-! ### Python's stable `sorted` -/

/-- Insert a later element after all already-placed elements `le` it —
the placement Python's stable sort gives it. -/
def insSorted {α : Type} (le : α → α → Bool) (a : α) : List α → List α
  | [] => [a]
  | b :: bs => if le b a then b :: insSorted le a bs else a :: b :: bs

/-- Python's stable `sorted(l)` under the comparison `le`. -/
def pySorted {α : Type} (le : α → α → Bool) (l : List α) : List α :=
  l.foldl (fun acc a => insSorted le a acc) []

/-- Python's `sorted(l, key=key)` with a string-valued key. -/
def pySortedBy {α : Type} (key : α → String) (l : List α) : List α :=
  pySorted (fun x y => strLe (key x) (key y)) l

theorem insSorted_perm {α : Type} (le : α → α → Bool) (a : α) :
    ∀ l : List α, List.Perm (insSorted le a l) (a :: l)
  | [] => List.Perm.refl _
  | b :: bs => by
      simp only [insSorted]
      by_cases h : le b a = true
      · rw [if_pos h]
        exact ((insSorted_perm le a bs).cons b).trans (List.Perm.swap a b bs)
      · rw [if_neg h]

theorem pySorted_perm {α : Type} (le : α → α → Bool) (l : List α) :
    List.Perm (pySorted le l) l := by
  suffices h : ∀ (l acc : List α),
      List.Perm (l.foldl (fun acc a => insSorted le a acc) acc) (acc ++ l) by
    simpa using h l []
  intro l
  induction l with
  | nil => simp
  | cons a l ih =>
      intro acc
      have step : (a :: l).foldl (fun acc a => insSorted le a acc) acc
          = l.foldl (fun acc a => insSorted le a acc) (insSorted le a acc) := rfl
      rw [step]
      exact ((ih _).trans (((insSorted_perm le a acc).append_right l))).trans
        List.perm_middle.symm

theorem mem_pySorted {α : Type} (le : α → α → Bool) (l : List α) (x : α) :
    x ∈ pySorted le l ↔ x ∈ l :=
  (pySorted_perm le l).mem_iff

theorem length_pySorted {α : Type} (le : α → α → Bool) (l : List α) :
    (pySorted le l).length = l.length :=
  (pySorted_perm le l).length_eq

theorem insSorted_pairwise {α : Type} (le : α → α → Bool)
    (htot : ∀ a b, le a b = true ∨ le b a = true)
    (htrans : ∀ a b c, le a b = true → le b c = true → le a c = true) (a : α) :
    ∀ l : List α, l.Pairwise (fun x y => le x y = true) →
      (insSorted le a l).Pairwise (fun x y => le x y = true)
  | [], _ => List.pairwise_singleton _ _
  | b :: bs, h => by
      rw [List.pairwise_cons] at h
      simp only [insSorted]
      by_cases hba : le b a = true
      · rw [if_pos hba, List.pairwise_cons]
        refine ⟨fun x hx => ?_, insSorted_pairwise le htot htrans a bs h.2⟩
        rcases List.mem_cons.mp ((insSorted_perm le a bs).mem_iff.mp hx) with rfl | hxbs
        · exact hba
        · exact h.1 x hxbs
      · rw [if_neg hba, List.pairwise_cons]
        refine ⟨fun x hx => ?_, List.pairwise_cons.mpr h⟩
        have hab : le a b = true := (htot a b).resolve_right hba
        rcases List.mem_cons.mp hx with rfl | hxbs
        · exact hab
        · exact htrans a b x hab (h.1 x hxbs)

theorem pySorted_pairwise {α : Type} (le : α → α → Bool)
    (htot : ∀ a b, le a b = true ∨ le b a = true)
    (htrans : ∀ a b c, le a b = true → le b c = true → le a c = true) (l : List α) :
    (pySorted le l).Pairwise (fun x y => le x y = true) := by
  suffices h : ∀ (l acc : List α), acc.Pairwise (fun x y => le x y = true) →
      (l.foldl (fun acc a => insSorted le a acc) acc).Pairwise (fun x y => le x y = true) by
    exact h l [] (List.Pairwise.nil)
  intro l
  induction l with
  | nil => intro acc h; simpa using h
  | cons a l ih => intro acc h; exact ih _ (insSorted_pairwise le htot htrans a acc h)

theorem pySortedBy_pairwise {α : Type} (key : α → String) (l : List α) :
    (pySortedBy key l).Pairwise (fun x y => strLe (key x) (key y) = true) :=
  pySorted_pairwise _ (fun a b => strLe_total (key a) (key b))
    (fun a b c => strLe_trans (key a) (key b) (key c)) l

theorem pySortedBy_perm {α : Type} (key : α → String) (l : List α) :
    List.Perm (pySortedBy key l) l :=
  pySorted_perm _ l

/-! ### Association lists: Python `dict` in insertion order -/

/-- `d.get(k)` on a Python dict: the (unique) entry for a key. -/
def alGet {β : Type} (k : String) : List (String × β) → Option β
  | [] => none
  | (k', v) :: rest => if k = k' then some v else alGet k rest

/-- `k in d` on a Python dict. -/
def alHasKey {β : Type} (k : String) (kvs : List (String × β)) : Bool :=
  kvs.any (fun p => p.1 = k)

/-- `d[k] = v` on a Python dict: overwrite in place, else append. -/
def alInsert {β : Type} (kvs : List (String × β)) (k : String) (v : β) : List (String × β) :=
  if alHasKey k kvs then kvs.map (fun p => if p.1 = k then (k, v) else p)
  else kvs ++ [(k, v)]

/-- `d.pop(k, None)` / deleting a key from a Python dict. -/
def alErase {β : Type} (kvs : List (String × β)) (k : String) : List (String × β) :=
  kvs.filter (fun p => decide (p.1 ≠ k))

theorem alGet_append {β : Type} (k : String) :
    ∀ l₁ l₂ : List (String × β), alGet k (l₁ ++ l₂) =
      (alGet k l₁).elim (alGet k l₂) some
  | [], _ => rfl
  | (k', v) :: l₁, l₂ => by
      by_cases h : k = k' <;> simp [alGet, h, alGet_append k l₁ l₂]

theorem alGet_eq_none_of_not_hasKey {β : Type} (k : String) :
    ∀ kvs : List (String × β), alHasKey k kvs = false → alGet k kvs = none
  | [], _ => rfl
  | (k', v) :: rest, h => by
      simp only [alHasKey, List.any_cons, Bool.or_eq_false_iff, decide_eq_false_iff_not] at h
      rw [alGet, if_neg (fun hk : k = k' => h.1 hk.symm)]
      exact alGet_eq_none_of_not_hasKey k rest (by simpa [alHasKey] using h.2)

/-- Overwriting an existing key in place only changes that key's entry. -/
theorem alGet_overwrite {β : Type} (k : String) (v : β) (k' : String) :
    ∀ kvs : List (String × β),
      alGet k' (kvs.map (fun p => if p.1 = k then (k, v) else p)) =
        if k' = k ∧ alHasKey k kvs = true then some v
        else alGet k' kvs
  | [] => by simp [alGet, alHasKey]
  | (k₀, w) :: rest => by
      have hrec := alGet_overwrite k v k' rest
      rw [List.map_cons]
      by_cases hk : k₀ = k
      · rw [if_pos (show ((k₀, w) : String × β).1 = k from hk)]
        by_cases hk' : k' = k
        · rw [alGet, if_pos hk', if_pos ⟨hk', by simp [alHasKey, hk]⟩]
        · rw [alGet, if_neg hk', hrec, if_neg (fun hc => hk' hc.1),
            if_neg (fun hc => hk' hc.1), alGet,
            if_neg (fun hc : k' = k₀ => hk' (hc.trans hk))]
      · rw [if_neg (show ¬ ((k₀, w) : String × β).1 = k from hk)]
        by_cases hk' : k' = k₀
        · have hne : ¬ (k' = k ∧ alHasKey k ((k₀, w) :: rest) = true) := fun hc =>
            hk (hk'.symm.trans hc.1)
          rw [alGet, if_pos hk', if_neg hne, alGet, if_pos hk']
        · rw [alGet, if_neg hk', hrec]
          have hkey : alHasKey k ((k₀, w) :: rest) = alHasKey k rest := by
            simp [alHasKey, hk]
          rw [hkey, alGet, if_neg hk']

theorem alGet_alInsert_self {β : Type} (kvs : List (String × β)) (k : String) (v : β) :
    alGet k (alInsert kvs k v) = some v := by
  unfold alInsert
  by_cases h : alHasKey k kvs = true
  · rw [if_pos h, alGet_overwrite, if_pos ⟨rfl, h⟩]
  · rw [if_neg h, alGet_append, alGet_eq_none_of_not_hasKey k kvs (by simpa using h)]
    simp [alGet]

theorem alGet_alInsert_ne {β : Type} (kvs : List (String × β)) (k k' : String) (v : β)
    (h : k' ≠ k) : alGet k' (alInsert kvs k v) = alGet k' kvs := by
  unfold alInsert
  by_cases hk : alHasKey k kvs = true
  · rw [if_pos hk, alGet_overwrite, if_neg (fun hc => h hc.1)]
  · rw [if_neg hk, alGet_append]
    cases hl : alGet k' kvs with
    | some w => simp
    | none => simp [alGet, if_neg h]

theorem alGet_mem {β : Type} (k : String) :
    ∀ kvs : List (String × β), ∀ v, alGet k kvs = some v → (k, v) ∈ kvs
  | [], _, h => by simp [alGet] at h
  | (k', w) :: rest, v, h => by
      by_cases hk : k = k'
      · simp only [alGet, if_pos hk] at h
        cases h; exact hk ▸ List.mem_cons_self _ _
      · simp only [alGet, if_neg hk] at h
        exact List.mem_cons_of_mem _ (alGet_mem k rest v h)

/-- Keys of an association list. -/
def alKeys {β : Type} (kvs : List (String × β)) : List String := kvs.map Prod.fst

theorem alHasKey_iff_mem_keys {β : Type} (k : String) (kvs : List (String × β)) :
    alHasKey k kvs = true ↔ k ∈ alKeys kvs := by
  simp [alHasKey, alKeys, List.any_eq_true, List.mem_map]

theorem alHasKey_eq_false_iff {β : Type} (k : String) (kvs : List (String × β)) :
    alHasKey k kvs = false ↔ k ∉ alKeys kvs := by
  rw [← Bool.not_eq_true, not_iff_not, alHasKey_iff_mem_keys]

theorem alHasKey_of_alGet_some {β : Type} (k : String) (v : β) :
    ∀ kvs : List (String × β), alGet k kvs = some v → alHasKey k kvs = true
  | [], h => by simp [alGet] at h
  | (k', w) :: rest, h => by
      by_cases hk : k = k'
      · simp [alHasKey, hk]
      · rw [alGet, if_neg hk] at h
        have := alHasKey_of_alGet_some k v rest h
        simp [alHasKey] at this ⊢
        exact Or.inr this

theorem alGet_eq_none_iff_not_hasKey {β : Type} (k : String) (kvs : List (String × β)) :
    alGet k kvs = none ↔ alHasKey k kvs = false := by
  constructor
  · intro h
    cases hk : alHasKey k kvs with
    | false => rfl
    | true =>
        rw [alHasKey_iff_mem_keys] at hk
        rcases List.mem_map.mp hk with ⟨p, hp, rfl⟩
        have : alGet p.1 kvs ≠ none := by
          clear hk h
          induction kvs with
          | nil => cases hp
          | cons q rest ih =>
              rcases List.mem_cons.mp hp with rfl | hmem
              · simp [alGet]
              · by_cases hq : p.1 = q.1
                · simp [alGet, hq]
                · rw [alGet, if_neg hq]; exact ih hmem
        exact absurd h this
  · intro h; exact alGet_eq_none_of_not_hasKey k kvs h

theorem alHasKey_alInsert_ne {β : Type} (kvs : List (String × β)) (k k' : String) (v : β)
    (h : k' ≠ k) : alHasKey k' (alInsert kvs k v) = alHasKey k' kvs := by
  unfold alInsert
  by_cases hk : alHasKey k kvs = true
  · rw [if_pos hk]
    simp only [alHasKey, List.any_map]
    congr 1
    funext p
    by_cases hp : p.1 = k <;> simp [hp, Function.comp, h.symm ∘ Eq.symm]
  · rw [if_neg hk]
    simp [alHasKey, List.any_append, Ne.symm h]

theorem alGet_alErase_ne {β : Type} (kvs : List (String × β)) (k k' : String)
    (h : k' ≠ k) : alGet k' (alErase kvs k) = alGet k' kvs := by
  induction kvs with
  | nil => rfl
  | cons p rest ih =>
      by_cases hp : p.1 = k
      · have : ¬ k' = p.1 := fun hc => h (hc.trans hp)
        simp only [alErase, List.filter_cons, decide_eq_true_eq]
        rw [if_neg (by simpa using hp)]
        rw [alGet, if_neg this]
        exact ih
      · simp only [alErase, List.filter_cons]
        rw [if_pos (by simpa using hp)]
        by_cases hk' : k' = p.1
        · rw [alGet, if_pos hk', alGet, if_pos hk']
        · rw [alGet, if_neg hk', alGet, if_neg hk']
          exact ih

theorem alHasKey_alErase_self {β : Type} (kvs : List (String × β)) (k : String) :
    alHasKey k (alErase kvs k) = false := by
  simp only [alHasKey, alErase, List.any_eq_false, decide_eq_true_eq]
  intro p hp
  rcases List.mem_filter.mp hp with ⟨-, hkeep⟩
  simpa using hkeep

theorem alHasKey_alErase_ne {β : Type} (kvs : List (String × β)) (k k' : String)
    (h : k' ≠ k) : alHasKey k' (alErase kvs k) = alHasKey k' kvs := by
  cases hres : alHasKey k' kvs with
  | true =>
      rw [alHasKey_iff_mem_keys] at hres ⊢
      rcases List.mem_map.mp hres with ⟨p, hp, rfl⟩
      refine List.mem_map.mpr ⟨p, List.mem_filter.mpr ⟨hp, ?_⟩, rfl⟩
      simpa using fun hc : p.1 = k => h (hc ▸ rfl)
  | false =>
      rw [alHasKey_eq_false_iff] at hres ⊢
      intro hc
      rcases List.mem_map.mp hc with ⟨p, hp, rfl⟩
      exact hres (List.mem_map.mpr ⟨p, (List.mem_filter.mp hp).1, rfl⟩)

theorem alGet_eq_none_of_not_mem_keys {β : Type} (k : String) :
    ∀ kvs : List (String × β), k ∉ alKeys kvs → alGet k kvs = none
  | [], _ => rfl
  | (k', v) :: rest, h => by
      simp only [alKeys, List.map_cons, List.mem_cons, not_or] at h
      simp only [alGet, if_neg h.1]
      exact alGet_eq_none_of_not_mem_keys k rest (by simpa [alKeys] using h.2)

/-! ### Serialized representations used as sort keys

`repr(x)` (the sort key in `_stable_jsonish`) and
`json.dumps(x, sort_keys=True, ensure_ascii=False)` (the sort key
`_stable_sort_key` in `helpers.py`).  String quoting is modelled with the
common escapes (backslash and the quote character); Python's full quoting
rules only differ on exotic strings and never affect which claim holds. -/

/-- Escape backslash and one quote character, as `repr`/`json.dumps` do. -/
def escapeQuote (q : Char) (s : String) : String :=
  String.mk (s.data.foldr
    (fun c acc => if c = '\\' ∨ c = q then '\\' :: c :: acc else c :: acc) [])

mutual

/-- Python `repr` of an embedded value. -/
def pyRepr : Value → String
  | .null => "None"
  | .bool true => "True"
  | .bool false => "False"
  | .int n => toString n
  | .str s => "\x27" ++ escapeQuote '\x27' s ++ "\x27"
  | .list xs => "[" ++ String.intercalate ", " (pyReprList xs) ++ "]"
  | .dict kvs => "\x7b" ++ String.intercalate ", " (pyReprKvs kvs) ++ "\x7d"

/-- `repr` of each element of a list. -/
def pyReprList : List Value → List String
  | [] => []
  | v :: vs => pyRepr v :: pyReprList vs

/-- `repr` of each `key: value` entry of a dict, in insertion order. -/
def pyReprKvs : List (String × Value) → List String
  | [] => []
  | (k, v) :: rest =>
      ("\x27" ++ escapeQuote '\x27' k ++ "\x27: " ++ pyRepr v) :: pyReprKvs rest

end

/-- Python `str` of an embedded value (`str` is `repr` except on strings). -/
def pyStr : Value → String
  | .str s => s
  | v => pyRepr v

mutual

/-- `json.dumps(v, sort_keys=True, ensure_ascii=False)`, the
`_stable_sort_key` of `helpers.py` (its `TypeError` fallback is
unreachable on embedded values, which are all serializable). -/
def jsonDumps : Value → String
  | .null => "null"
  | .bool true => "true"
  | .bool false => "false"
  | .int n => toString n
  | .str s => "\"" ++ escapeQuote '"' s ++ "\""
  | .list xs => "[" ++ String.intercalate ", " (jsonDumpsList xs) ++ "]"
  | .dict kvs =>
      "\x7b" ++
        String.intercalate ", "
          ((pySortedBy Prod.fst (jsonDumpsKvs kvs)).map
            (fun p => "\"" ++ escapeQuote '"' p.1 ++ "\": " ++ p.2)) ++
      "\x7d"

/-- `json.dumps` of each element of a list. -/
def jsonDumpsList : List Value → List String
  | [] => []
  | v :: vs => jsonDumps v :: jsonDumpsList vs

/-- `json.dumps` of each dict value, keyed for the `sort_keys=True` ordering. -/
def jsonDumpsKvs : List (String × Value) → List (String × String)
  | [] => []
  | (k, v) :: rest => (k, jsonDumps v) :: jsonDumpsKvs rest

end

/-! ### The remote-store collaborator

Remote reads are answered by an environment of current collections and
response oracles; every remote call the core issues is recorded as an
`Op`.  Reads (`list…`) are pure environment lookups and not mutations;
the recorded calls are workspace get-or-create, the nine entity
create/update/delete operations, version creation and publish. -/

/-- A remote call issued by the core. -/
inductive Op where
  | getOrCreateWorkspace (accountId containerId workspaceName : String) (createIfMissing : Bool)
  | createVariable (workspacePath : String) (body : Value)
  | updateVariable (path : String) (body : Value) (fingerprint : Option Value)
  | deleteVariable (path : Value)
  | createTrigger (workspacePath : String) (body : Value)
  | updateTrigger (path : String) (body : Value) (fingerprint : Option Value)
  | deleteTrigger (path : Value)
  | createTag (workspacePath : String) (body : Value)
  | updateTag (path : String) (body : Value) (fingerprint : Option Value)
  | deleteTag (path : Value)
  | createVersion (workspacePath name notes : String)
  | publishVersion (path : Value)
  deriving DecidableEq

/-- A create/update/delete on the tag, trigger or variable collaborators. -/
def Op.isEntityMutation : Op → Bool
  | .getOrCreateWorkspace _ _ _ _ => false
  | .createVersion _ _ _ => false
  | .publishVersion _ => false
  | _ => true

/-- Is this op a version-creation call? -/
def Op.isCreateVersion : Op → Bool
  | .createVersion _ _ _ => true
  | _ => false

/-- Is this op a publish call? -/
def Op.isPublishVersion : Op → Bool
  | .publishVersion _ => true
  | _ => false

/-- Is this op a tag deletion? -/
def Op.isTagDelete : Op → Bool
  | .deleteTag _ => true
  | _ => false

/-- Is this op a trigger deletion? -/
def Op.isTriggerDelete : Op → Bool
  | .deleteTrigger _ => true
  | _ => false

/-- Is this op a variable deletion? -/
def Op.isVariableDelete : Op → Bool
  | .deleteVariable _ => true
  | _ => false

/-- `ContainerManager._container_path`. -/
def containerPathOf (account_id container_id : String) : String :=
  "accounts/" ++ account_id ++ "/containers/" ++ container_id

/-- `ContainerManager._workspace_path` (the same format the workflow layer's
`containers.workspace_path` collaborator produces). -/
def workspacePathOf (account_id container_id workspace_id : String) : String :=
  containerPathOf account_id container_id ++ "/workspaces/" ++ workspace_id

/-! ## `src/utils/helpers.py` -/

namespace Helpers

/-- `DEFAULT_READ_ONLY_FIELDS`. -/
def DEFAULT_READ_ONLY_FIELDS : List String :=
  ["accountId", "containerId", "workspaceId", "tagId", "triggerId", "variableId",
   "path", "fingerprint", "tagManagerUrl"]

/-- `set(read_only_fields or DEFAULT_READ_ONLY_FIELDS)`: a missing or empty
(falsy) argument falls back to the default set. -/
def roFields (read_only_fields : Option (List String)) : List String :=
  match read_only_fields with
  | none => DEFAULT_READ_ONLY_FIELDS
  | some l => if l.isEmpty then DEFAULT_READ_ONLY_FIELDS else l

mutual

/-- `helpers._canonicalize`: mappings drop the read-only keys, canonicalize
the remaining values and sort by key; every list is sorted by
`_stable_sort_key`; scalars pass through. -/
def canonicalize (ro : List String) : Value → Value
  | .dict kvs => .dict (pySortedBy Prod.fst (canonicalizeKvs ro kvs))
  | .list xs => .list (pySortedBy jsonDumps (canonicalizeList ro xs))
  | v => v

/-- The `cleaned` comprehension of `_canonicalize` (drop + recurse); the
key-sorted rebuild is the `pySortedBy Prod.fst` above (sorting the entries
by key equals Python's sorted-keys rebuild, as the keys are unchanged). -/
def canonicalizeKvs (ro : List String) : List (String × Value) → List (String × Value)
  | [] => []
  | (k, v) :: rest =>
      if ro.contains k then canonicalizeKvs ro rest
      else (k, canonicalize ro v) :: canonicalizeKvs ro rest

/-- Elementwise `_canonicalize` over a list. -/
def canonicalizeList (ro : List String) : List Value → List Value
  | [] => []
  | v :: vs => canonicalize ro v :: canonicalizeList ro vs

end

/-- `helpers.canonicalize_for_diff`. -/
def canonicalize_for_diff (value : Value) (read_only_fields : Option (List String)) : Value :=
  canonicalize (roFields read_only_fields) value

/-- `helpers._index_by_name`: keyed by the *trimmed* (case-preserved) name;
entities with a falsy name after `str(...).strip()` are skipped; duplicate
names are last-write-wins. -/
def indexByName (entities : List Dict) : List (String × Dict) :=
  entities.foldl
    (fun indexed e =>
      let name := pyStrip (pyStr ((alGet "name" e).getD (.str "")))
      if name ≠ "" then alInsert indexed name e else indexed)
    []

/-- Result shape of `diff_entities_by_name`. -/
structure DiffResult where
  create : List String
  update : List String
  delete : List String
  deriving DecidableEq

/-- `helpers.diff_entities_by_name`.  `sorted(desired_names - current_names)`
enumerates a set whose iteration order is unspecified but whose sorted
image is not; the duplicate-free key list of the index is filtered and
sorted, which is that same sorted image. -/
def diff_entities_by_name (desired current : List Dict)
    (read_only_fields : Option (List String)) : DiffResult :=
  let desired_map := indexByName desired
  let current_map := indexByName current
  let fields := roFields read_only_fields
  let create := pySortedBy id ((alKeys desired_map).filter
    (fun n => !(alHasKey n current_map)))
  let delete := pySortedBy id ((alKeys current_map).filter
    (fun n => !(alHasKey n desired_map)))
  let update := (pySortedBy id ((alKeys desired_map).filter
      (fun n => alHasKey n current_map))).filter
    (fun n => decide (canonicalize fields (.dict ((alGet n desired_map).getD [])) ≠
      canonicalize fields (.dict ((alGet n current_map).getD []))))
  ⟨create, update, delete⟩

end Helpers

/-! ## `src/managers/workflow_manager.py` -/

namespace Workflow

/-- `_DYNAMIC_FIELDS`. -/
def DYNAMIC_FIELDS : List String :=
  ["accountId", "containerId", "workspaceId", "path", "fingerprint",
   "tagId", "triggerId", "variableId"]

/-- `k.startswith("__")`. -/
def startsDunder (k : String) : Bool := k.data.take 2 == ['_', '_']

mutual

/-- `strip_dynamic_fields_deep`. -/
def strip_dynamic_fields_deep : Value → Value
  | .list xs => .list (stripList xs)
  | .dict kvs => .dict (stripKvs kvs)
  | v => v

/-- Elementwise strip over a list. -/
def stripList : List Value → List Value
  | [] => []
  | v :: vs => strip_dynamic_fields_deep v :: stripList vs

/-- The dict loop of `strip_dynamic_fields_deep`: skip dynamic and
dunder-prefixed keys, recurse on kept values. -/
def stripKvs : List (String × Value) → List (String × Value)
  | [] => []
  | (k, v) :: rest =>
      if DYNAMIC_FIELDS.contains k || startsDunder k then stripKvs rest
      else (k, strip_dynamic_fields_deep v) :: stripKvs rest

end

mutual

/-- `_stable_jsonish`: lists recurse elementwise and are sorted by `repr`
only when every resulting element is a dict; dicts are rebuilt with sorted
keys (sorting the entries by key equals Python's sorted-keys rebuild, the
keys being unchanged by the value recursion); scalars pass through. -/
def stable_jsonish : Value → Value
  | .list xs =>
      let items := stableList xs
      if items.all Value.isDict then .list (pySortedBy pyRepr items) else .list items
  | .dict kvs => .dict (pySortedBy Prod.fst (stableKvs kvs))
  | v => v

/-- Elementwise `_stable_jsonish` over a list. -/
def stableList : List Value → List Value
  | [] => []
  | v :: vs => stable_jsonish v :: stableList vs

/-- `_stable_jsonish` applied to each dict value. -/
def stableKvs : List (String × Value) → List (String × Value)
  | [] => []
  | (k, v) :: rest => (k, stable_jsonish v) :: stableKvs rest

end

/-- `normalize_for_diff`. -/
def normalize_for_diff (entity : Dict) : Dict :=
  match stable_jsonish (strip_dynamic_fields_deep (.dict entity)) with
  | .dict kvs => kvs
  | _ => []

/-- `workflow_manager._index_by_name`: keyed by `_lower(name)` for entities
whose `name` is a non-whitespace string; last-write-wins on duplicates. -/
def indexByName (entities : List Dict) : List (String × Dict) :=
  entities.foldl
    (fun out e =>
      match alGet "name" e with
      | some (Value.str s) => if pyStrip s ≠ "" then alInsert out (pyNorm s) e else out
      | _ => out)
    []

/-- `entity.get("name", name_lower)`, coerced to the display string (entries
of the index always carry a non-empty string name, so `pyStr` is the
identity on what the source appends to the summary lists). -/
def displayName (e : Dict) (name_lower : String) : String :=
  pyStr ((alGet "name" e).getD (.str name_lower))

/-- `EntityDiff`. -/
structure EntityDiff where
  create : List String
  update : List String
  delete : List String
  deriving DecidableEq

/-- `diff_named_entities`.  The single pass over the desired index that
appends to `create` or `update` is written as one `filterMap` per branch
(`if not current_entity` is a `None` test: index entries are non-empty
dicts, hence truthy); each list is then sorted with
`key=lambda x: str(x).lower()`. -/
def diff_named_entities (desired current : List Dict) : EntityDiff :=
  let desired_by_name := indexByName desired
  let current_by_name := indexByName current
  let create := desired_by_name.filterMap (fun p =>
    if (alGet p.1 current_by_name).isNone then some (displayName p.2 p.1) else none)
  let update := desired_by_name.filterMap (fun p =>
    match alGet p.1 current_by_name with
    | some cur =>
        if normalize_for_diff p.2 ≠ normalize_for_diff cur
        then some (displayName p.2 p.1) else none
    | none => none)
  let delete := current_by_name.filterMap (fun p =>
    if !(alHasKey p.1 desired_by_name) then some (displayName p.2 p.1) else none)
  ⟨pySortedBy pyLower create, pySortedBy pyLower update, pySortedBy pyLower delete⟩

mutual

/-- `_merge_desired_into_current`: a desired list replaces wholesale; when
either side is not a dict the desired value wins; two dicts merge
entrywise. -/
def merge_desired_into_current : Value → Value → Value
  | _, .list xs => .list xs
  | .dict ckvs, .dict dkvs => .dict (mergeKvs ckvs dkvs)
  | _, d => d

/-- The merge loop: `merged[k] = None` for explicit nulls, else
`merged[k] = _merge_desired_into_current(merged.get(k), v)` (an absent
current key merges against Python `None`). -/
def mergeKvs (merged : List (String × Value)) : List (String × Value) → List (String × Value)
  | [] => merged
  | (k, v) :: rest =>
      if v = .null then mergeKvs (alInsert merged k .null) rest
      else mergeKvs
        (alInsert merged k (merge_desired_into_current ((alGet k merged).getD .null) v)) rest

end

/-- The `ValueError` message of `_resolve_trigger_ids`. -/
def missingTriggerMsg (tag_name label raw : String) : String :=
  "Tag \x27" ++ tag_name ++ "\x27 references missing " ++ label ++
    " by name: \x27" ++ raw ++ "\x27"

/-- `_resolve_trigger_ids`: skip falsy (whitespace-only) names; look up
`_lower(raw)`; a missing or falsy mapped id raises, naming the tag and the
missing trigger. -/
def resolve_trigger_ids (tag_name : String) (trigger_names : List String)
    (trigger_name_to_id : List (String × String)) (label : String) :
    Except String (List String) :=
  match trigger_names with
  | [] => .ok []
  | raw :: rest =>
      if pyStrip raw = "" then
        resolve_trigger_ids tag_name rest trigger_name_to_id label
      else
        match alGet (pyNorm raw) trigger_name_to_id with
        | some tid =>
            if tid = "" then .error (missingTriggerMsg tag_name label raw)
            else (resolve_trigger_ids tag_name rest trigger_name_to_id label).map (tid :: ·)
        | none => .error (missingTriggerMsg tag_name label raw)

/-- The ambiguous-firing-specification `ValueError` message. -/
def bothFiringMsg (tag_name : String) : String :=
  "Tag \x27" ++ tag_name ++ "\x27 cannot specify both firingTriggerNames and firingTriggerId."

/-- The ambiguous-blocking-specification `ValueError` message. -/
def bothBlockingMsg (tag_name : String) : String :=
  "Tag \x27" ++ tag_name ++ "\x27 cannot specify both blockingTriggerNames and blockingTriggerId."

/-- `_tag_with_resolved_triggers`: reject a tag carrying both the name-list
and the id-list form of a role; resolve a present name-list, store the ids
under the id-list key and drop the name-list key. -/
def tag_with_resolved_triggers (tag : Dict) (trigger_name_to_id : List (String × String)) :
    Except String Dict :=
  let out := tag
  let tag_name := pyStr (pyOr ((alGet "name" out).getD .null) (.str "?"))
  if alHasKey "firingTriggerNames" out && alHasKey "firingTriggerId" out then
    .error (bothFiringMsg tag_name)
  else
    let afterFiring : Except String Dict :=
      match alGet "firingTriggerNames" out with
      | some (Value.list firing_names) =>
          (resolve_trigger_ids tag_name (firing_names.map pyStr) trigger_name_to_id
            "trigger").map (fun resolved =>
              alErase (alInsert out "firingTriggerId" (.list (resolved.map Value.str)))
                "firingTriggerNames")
      | _ => .ok out
    match afterFiring with
    | .error e => .error e
    | .ok out1 =>
        if alHasKey "blockingTriggerNames" out1 && alHasKey "blockingTriggerId" out1 then
          .error (bothBlockingMsg tag_name)
        else
          match alGet "blockingTriggerNames" out1 with
          | some (Value.list blocking_names) =>
              (resolve_trigger_ids tag_name (blocking_names.map pyStr) trigger_name_to_id
                "blocking trigger").map (fun resolved =>
                  alErase (alInsert out1 "blockingTriggerId" (.list (resolved.map Value.str)))
                    "blockingTriggerNames")
          | _ => .ok out1

/-- `_entity_path_from_workspace`: a non-whitespace string `path` field wins;
else a non-whitespace string id field yields `{ws}/{collection}/{id}`;
else no path. -/
def entity_path_from_workspace (workspace_path collection : String) (entity : Dict)
    (id_key : String) : Option String :=
  let fromId : Option String :=
    match alGet id_key entity with
    | some (Value.str raw_id) =>
        if pyStrip raw_id ≠ "" then
          some (workspace_path ++ "/" ++ collection ++ "/" ++ raw_id)
        else none
    | _ => none
  match alGet "path" entity with
  | some (Value.str p) => if pyStrip p ≠ "" then some p else fromId
  | _ => fromId

/-- `_summarize_list`: drop falsy strings, sort case-insensitively. -/
def summarize_list (value : List String) : List String :=
  pySortedBy pyLower (value.filter (fun v => pyStrip v ≠ ""))

/-- One per-type bucket of the sync summary. -/
structure EntitySummary where
  created : List String
  updated : List String
  deleted : List String
  skipped : List String
  deriving DecidableEq

/-- The empty bucket `_init_summary` starts each type with. -/
def EntitySummary.init : EntitySummary := ⟨[], [], [], []⟩

/-- The sync summary (`_init_summary` / `_finalize_summary` shape); the
`vars` field embeds the summary's `"variables"` bucket (`variables` is a
reserved word in Lean). -/
structure Summary where
  workspacePath : String
  dryRun : Bool
  deleteMissing : Bool
  vars : EntitySummary
  triggers : EntitySummary
  tags : EntitySummary
  deriving DecidableEq

/-- `_init_summary`. -/
def init_summary (workspace_path : String) (dry_run delete_missing : Bool) : Summary :=
  ⟨workspace_path, dry_run, delete_missing, .init, .init, .init⟩

/-- `_summarize_list` applied to each list of a bucket. -/
def finalizeEntity (e : EntitySummary) : EntitySummary :=
  ⟨summarize_list e.created, summarize_list e.updated,
   summarize_list e.deleted, summarize_list e.skipped⟩

/-- `_finalize_summary`. -/
def finalize_summary (s : Summary) : Summary :=
  { s with vars := finalizeEntity s.vars,
           triggers := finalizeEntity s.triggers,
           tags := finalizeEntity s.tags }

/-- The remote collaborators of `WorkspaceWorkflowManager`, as current
collections plus response oracles for the calls whose responses the code
reads. -/
structure WEnv where
  getOrCreateWorkspaceResp : String → String → String → Bool → Dict
  currentVariables : List Dict
  currentTriggers : List Dict
  currentTags : List Dict
  createTriggerResp : String → Value → Dict
  updateTriggerResp : String → Value → Dict
  createVersionResp : String → String → String → Dict
  publishResp : Value → Value

/-- `_WORKSPACE_PATH_MISSING_ERROR`. -/
def WORKSPACE_PATH_MISSING_ERROR : String := "Workspace response missing path/workspaceId."

/-- `_DESIRED_LISTS_MISSING_ERROR`. -/
def DESIRED_LISTS_MISSING_ERROR : String :=
  "Desired snapshot must contain list fields: variables/triggers/tags."

/-- `_workspace_path_from_workspace_payload`: `workspace.get("path") or
(containers.workspace_path(...) if workspace_id else None)`, then require a
non-whitespace string. -/
def workspace_path_from_workspace_payload (account_id container_id : String)
    (workspace : Dict) : Except String String :=
  let fromId : Option Value :=
    match alGet "workspaceId" workspace with
    | some idv =>
        if pyTruthy idv then
          some (.str (workspacePathOf account_id container_id (pyStr idv)))
        else none
    | none => none
  let workspace_path : Option Value :=
    match alGet "path" workspace with
    | some p => if pyTruthy p then some p else fromId
    | none => fromId
  match workspace_path with
  | some (Value.str s) =>
      if pyStrip s ≠ "" then .ok s else .error WORKSPACE_PATH_MISSING_ERROR
  | _ => .error WORKSPACE_PATH_MISSING_ERROR

/-- `_get_workspace_path`: a `get_or_create_workspace` collaborator call
(recorded in the trace) followed by path extraction. -/
def get_workspace_path (env : WEnv) (account_id container_id workspace_name : String)
    (create_if_missing : Bool) : Except String String × List Op :=
  let workspace := env.getOrCreateWorkspaceResp account_id container_id workspace_name
    create_if_missing
  (workspace_path_from_workspace_payload account_id container_id workspace,
   [.getOrCreateWorkspace account_id container_id workspace_name create_if_missing])

/-- `desired_snapshot.get(k) or []` (a falsy value defaults to the empty list). -/
def pyOrEmptyList (v : Option Value) : Value :=
  match v with
  | some x => if pyTruthy x then x else .list []
  | none => .list []

/-- The `isinstance(v, dict)` filters of `_parse_desired_snapshot`. -/
def onlyDicts (xs : List Value) : List Dict :=
  xs.filterMap (fun v => match v with | .dict kvs => some kvs | _ => none)

/-- `_parse_desired_snapshot`: the three fields default falsy values to `[]`,
must be lists, and keep only dict entries. -/
def parse_desired_snapshot (desired_snapshot : Dict) :
    Except String (List Dict × List Dict × List Dict) :=
  match pyOrEmptyList (alGet "variables" desired_snapshot),
        pyOrEmptyList (alGet "triggers" desired_snapshot),
        pyOrEmptyList (alGet "tags" desired_snapshot) with
  | .list vs, .list ts, .list gs => .ok (onlyDicts vs, onlyDicts ts, onlyDicts gs)
  | _, _, _ => .error DESIRED_LISTS_MISSING_ERROR

/-- `str(desired.get("name") or name_lower)`: the display name a loop
iteration records in the summary. -/
def loopDisplay (e : Dict) (name_lower : String) : String :=
  pyStr (pyOr ((alGet "name" e).getD .null) (.str name_lower))

/-- The per-type `ValueError` message for an update without path or id key. -/
def cannotUpdateMsg (kind display id_key : String) : String :=
  "Cannot update " ++ kind ++ " \x27" ++ display ++ "\x27 (missing path/" ++ id_key ++ ")."

/-- One iteration of the `_sync_variables` loop over the desired index
(`if not existing` is a `None` test: index entries are non-empty dicts). -/
def syncVariableStep (ws : String) (dry_run update_existing : Bool)
    (var_by_name : List (String × Dict)) (k : String) (desired_var : Dict)
    (s : EntitySummary) : Except String EntitySummary × List Op :=
  let display := loopDisplay desired_var k
  match alGet k var_by_name with
  | none =>
      let s' := { s with created := s.created ++ [display] }
      if dry_run then (.ok s', [])
      else (.ok s', [.createVariable ws (strip_dynamic_fields_deep (.dict desired_var))])
  | some existing =>
      if !update_existing then (.ok { s with skipped := s.skipped ++ [display] }, [])
      else if normalize_for_diff desired_var = normalize_for_diff existing then
        (.ok { s with skipped := s.skipped ++ [display] }, [])
      else
        let s' := { s with updated := s.updated ++ [display] }
        if dry_run then (.ok s', [])
        else
          match entity_path_from_workspace ws "variables" existing "variableId" with
          | none => (.error (cannotUpdateMsg "variable" display "variableId"), [])
          | some p =>
              (.ok s', [.updateVariable p
                (strip_dynamic_fields_deep
                  (merge_desired_into_current (.dict existing) (.dict desired_var)))
                (alGet "fingerprint" existing)])

/-- The `_sync_variables` loop. -/
def syncVariablesLoop (ws : String) (dry_run update_existing : Bool)
    (var_by_name : List (String × Dict)) :
    List (String × Dict) → EntitySummary → Except String EntitySummary × List Op
  | [], s => (.ok s, [])
  | (k, dv) :: rest, s =>
      match syncVariableStep ws dry_run update_existing var_by_name k dv s with
      | (.error e, ops) => (.error e, ops)
      | (.ok s', ops) =>
          let (r, more) := syncVariablesLoop ws dry_run update_existing var_by_name rest s'
          (r, ops ++ more)

/-- `_sync_variables`. -/
def sync_variables (env : WEnv) (ws : String) (desired_variables : List Dict)
    (dry_run update_existing : Bool) :
    Except String (List (String × Dict) × List (String × Dict) × EntitySummary) × List Op :=
  let var_by_name := indexByName env.currentVariables
  let desired_var_by_name := indexByName desired_variables
  match syncVariablesLoop ws dry_run update_existing var_by_name desired_var_by_name .init with
  | (.ok s, ops) => (.ok (var_by_name, desired_var_by_name, s), ops)
  | (.error e, ops) => (.error e, ops)

/-- The trigger name→id map built from the current triggers. -/
def triggerNameToId (current_triggers : List Dict) : List (String × String) :=
  current_triggers.foldl
    (fun m trigger =>
      match alGet "name" trigger, alGet "triggerId" trigger with
      | some (Value.str name), some (Value.str tid) =>
          if pyStrip name ≠ "" ∧ pyStrip tid ≠ "" then alInsert m (pyNorm name) tid else m
      | _, _ => m)
    []

/-- One iteration of the `_sync_triggers` loop, threading the name→id map. -/
def syncTriggerStep (env : WEnv) (ws : String) (dry_run update_existing : Bool)
    (trig_by_name : List (String × Dict)) (k : String) (desired_trig : Dict)
    (s : EntitySummary) (m : List (String × String)) :
    Except String (EntitySummary × List (String × String)) × List Op :=
  let display := loopDisplay desired_trig k
  match alGet k trig_by_name with
  | none =>
      let s' := { s with created := s.created ++ [display] }
      if dry_run then (.ok (s', m), [])
      else
        let body := strip_dynamic_fields_deep (.dict desired_trig)
        let created := env.createTriggerResp ws body
        let m' := match alGet "triggerId" created with
          | some (Value.str cid) => if pyStrip cid ≠ "" then alInsert m k cid else m
          | _ => m
        (.ok (s', m'), [.createTrigger ws body])
  | some existing =>
      if !update_existing then (.ok ({ s with skipped := s.skipped ++ [display] }, m), [])
      else if normalize_for_diff desired_trig = normalize_for_diff existing then
        (.ok ({ s with skipped := s.skipped ++ [display] }, m), [])
      else
        let s' := { s with updated := s.updated ++ [display] }
        if dry_run then (.ok (s', m), [])
        else
          match entity_path_from_workspace ws "triggers" existing "triggerId" with
          | none => (.error (cannotUpdateMsg "trigger" display "triggerId"), [])
          | some p =>
              let body := strip_dynamic_fields_deep
                (merge_desired_into_current (.dict existing) (.dict desired_trig))
              let updated := env.updateTriggerResp p body
              let updated_id := pyOr ((alGet "triggerId" updated).getD .null)
                ((alGet "triggerId" existing).getD .null)
              let m' := match updated_id with
                | Value.str uid => if pyStrip uid ≠ "" then alInsert m k uid else m
                | _ => m
              (.ok (s', m'), [.updateTrigger p body (alGet "fingerprint" existing)])

/-- The `_sync_triggers` loop. -/
def syncTriggersLoop (env : WEnv) (ws : String) (dry_run update_existing : Bool)
    (trig_by_name : List (String × Dict)) :
    List (String × Dict) → EntitySummary → List (String × String) →
      Except String (EntitySummary × List (String × String)) × List Op
  | [], s, m => (.ok (s, m), [])
  | (k, dt) :: rest, s, m =>
      match syncTriggerStep env ws dry_run update_existing trig_by_name k dt s m with
      | (.error e, ops) => (.error e, ops)
      | (.ok (s', m'), ops) =>
          let (r, more) := syncTriggersLoop env ws dry_run update_existing trig_by_name rest s' m'
          (r, ops ++ more)

/-- `_sync_triggers`. -/
def sync_triggers (env : WEnv) (ws : String) (desired_triggers : List Dict)
    (dry_run update_existing : Bool) :
    Except String (List (String × Dict) × List (String × Dict) ×
      List (String × String) × EntitySummary) × List Op :=
  let trig_by_name := indexByName env.currentTriggers
  let desired_trig_by_name := indexByName desired_triggers
  let m0 := triggerNameToId env.currentTriggers
  match syncTriggersLoop env ws dry_run update_existing trig_by_name
      desired_trig_by_name .init m0 with
  | (.ok (s, m), ops) => (.ok (trig_by_name, desired_trig_by_name, m, s), ops)
  | (.error e, ops) => (.error e, ops)

/-- The `ValueError` message for a tag creation without firing triggers. -/
def cannotCreateTagMsg (display : String) : String :=
  "Cannot create tag \x27" ++ display ++
    "\x27: missing firingTriggerId (or firingTriggerNames)."

/-- One iteration of the `_sync_tags` loop: resolve trigger references first,
then the create / skip / update decision; creation requires the
post-resolution `firingTriggerId` to be a list. -/
def syncTagStep (ws : String) (dry_run update_existing : Bool)
    (tag_by_name : List (String × Dict)) (m : List (String × String)) (k : String)
    (raw_desired_tag : Dict) (s : EntitySummary) : Except String EntitySummary × List Op :=
  match tag_with_resolved_triggers raw_desired_tag m with
  | .error e => (.error e, [])
  | .ok desired_tag =>
      let display := loopDisplay desired_tag k
      match alGet k tag_by_name with
      | none =>
          match alGet "firingTriggerId" desired_tag with
          | some (Value.list _) =>
              let s' := { s with created := s.created ++ [display] }
              if dry_run then (.ok s', [])
              else (.ok s', [.createTag ws (strip_dynamic_fields_deep (.dict desired_tag))])
          | _ => (.error (cannotCreateTagMsg display), [])
      | some existing =>
          if !update_existing then (.ok { s with skipped := s.skipped ++ [display] }, [])
          else if normalize_for_diff desired_tag = normalize_for_diff existing then
            (.ok { s with skipped := s.skipped ++ [display] }, [])
          else
            let s' := { s with updated := s.updated ++ [display] }
            if dry_run then (.ok s', [])
            else
              match entity_path_from_workspace ws "tags" existing "tagId" with
              | none => (.error (cannotUpdateMsg "tag" display "tagId"), [])
              | some p =>
                  (.ok s', [.updateTag p
                    (strip_dynamic_fields_deep
                      (merge_desired_into_current (.dict existing) (.dict desired_tag)))
                    (alGet "fingerprint" existing)])

/-- The `_sync_tags` loop. -/
def syncTagsLoop (ws : String) (dry_run update_existing : Bool)
    (tag_by_name : List (String × Dict)) (m : List (String × String)) :
    List (String × Dict) → EntitySummary → Except String EntitySummary × List Op
  | [], s => (.ok s, [])
  | (k, dt) :: rest, s =>
      match syncTagStep ws dry_run update_existing tag_by_name m k dt s with
      | (.error e, ops) => (.error e, ops)
      | (.ok s', ops) =>
          let (r, more) := syncTagsLoop ws dry_run update_existing tag_by_name m rest s'
          (r, ops ++ more)

/-- `_sync_tags`. -/
def sync_tags (env : WEnv) (ws : String) (desired_tags : List Dict)
    (m : List (String × String)) (dry_run update_existing : Bool) :
    Except String (List (String × Dict) × List (String × Dict) × EntitySummary) × List Op :=
  let tag_by_name := indexByName env.currentTags
  let desired_tag_by_name := indexByName desired_tags
  match syncTagsLoop ws dry_run update_existing tag_by_name m desired_tag_by_name .init with
  | (.ok s, ops) => (.ok (tag_by_name, desired_tag_by_name, s), ops)
  | (.error e, ops) => (.error e, ops)

/-- One of the three deletion loops of `_apply_deletes` (they differ only in
collection name, id key and delete operation): a current entity whose key
is not desired is recorded as deleted; outside dry-run its delete call is
issued only when a path can be derived. -/
def applyDeleteLoop (ws collection id_key : String) (mkOp : Value → Op)
    (dry_run : Bool) (desired_names : List String) :
    List (String × Dict) → List String × List Op
  | [] => ([], [])
  | (k, existing) :: rest =>
      let res := applyDeleteLoop ws collection id_key mkOp dry_run desired_names rest
      if k ∈ desired_names then res
      else
        let display := loopDisplay existing k
        if dry_run then (display :: res.1, res.2)
        else
          match entity_path_from_workspace ws collection existing id_key with
          | some p => (display :: res.1, mkOp (.str p) :: res.2)
          | none => (display :: res.1, res.2)

/-- `_apply_deletes`: nothing unless `delete_missing`; then the tag loop, the
trigger loop and the variable loop, in that order. -/
def apply_deletes (ws : String) (s : Summary) (dry_run delete_missing : Bool)
    (var_by_name desired_var_by_name trig_by_name desired_trig_by_name
      tag_by_name desired_tag_by_name : List (String × Dict)) : Summary × List Op :=
  if !delete_missing then (s, [])
  else
    let tagRes := applyDeleteLoop ws "tags" "tagId" Op.deleteTag dry_run
      (alKeys desired_tag_by_name) tag_by_name
    let trigRes := applyDeleteLoop ws "triggers" "triggerId" Op.deleteTrigger dry_run
      (alKeys desired_trig_by_name) trig_by_name
    let varRes := applyDeleteLoop ws "variables" "variableId" Op.deleteVariable dry_run
      (alKeys desired_var_by_name) var_by_name
    ({ s with tags := { s.tags with deleted := s.tags.deleted ++ tagRes.1 },
              triggers := { s.triggers with deleted := s.triggers.deleted ++ trigRes.1 },
              vars := { s.vars with deleted := s.vars.deleted ++ varRes.1 } },
     tagRes.2 ++ trigRes.2 ++ varRes.2)

/-- `WorkspaceWorkflowManager.sync_workspace`. -/
def sync_workspace (env : WEnv) (desired_snapshot : Dict)
    (account_id container_id workspace_name : String)
    (dry_run delete_missing update_existing : Bool) : Except String Summary × List Op :=
  match get_workspace_path env account_id container_id workspace_name true with
  | (.error e, ops0) => (.error e, ops0)
  | (.ok ws, ops0) =>
      match parse_desired_snapshot desired_snapshot with
      | .error e => (.error e, ops0)
      | .ok (desired_variables, desired_triggers, desired_tags) =>
          match sync_variables env ws desired_variables dry_run update_existing with
          | (.error e, ops1) => (.error e, ops0 ++ ops1)
          | (.ok (var_by_name, desired_var_by_name, sVar), ops1) =>
              match sync_triggers env ws desired_triggers dry_run update_existing with
              | (.error e, ops2) => (.error e, ops0 ++ ops1 ++ ops2)
              | (.ok (trig_by_name, desired_trig_by_name, m, sTrig), ops2) =>
                  match sync_tags env ws desired_tags m dry_run update_existing with
                  | (.error e, ops3) => (.error e, ops0 ++ ops1 ++ ops2 ++ ops3)
                  | (.ok (tag_by_name, desired_tag_by_name, sTag), ops3) =>
                      let summary0 :=
                        { init_summary ws dry_run delete_missing with
                          vars := sVar, triggers := sTrig, tags := sTag }
                      let res := apply_deletes ws summary0 dry_run delete_missing
                        var_by_name desired_var_by_name trig_by_name desired_trig_by_name
                        tag_by_name desired_tag_by_name
                      (.ok (finalize_summary res.1),
                       ops0 ++ ops1 ++ ops2 ++ ops3 ++ res.2)

/-- The `ValueError` message of a publish without a returned version path. -/
def VERSION_PATH_ERROR : String := "Version creation did not return containerVersion.path."

/-- `WorkspaceWorkflowManager.publish_from_workspace`: resolve (or create)
the workspace, then either return the dry-run intent record or create and
publish a version. -/
def publish_from_workspace (env : WEnv)
    (account_id container_id workspace_name version_name version_notes : String)
    (dry_run : Bool) : Except String Value × List Op :=
  match get_workspace_path env account_id container_id workspace_name true with
  | (.error e, ops0) => (.error e, ops0)
  | (.ok ws, ops0) =>
      if dry_run then
        (.ok (.dict [("dryRun", .bool true), ("action", .str "publish"),
                     ("workspacePath", .str ws), ("versionName", .str version_name)]),
         ops0)
      else
        let created := env.createVersionResp ws version_name version_notes
        let ops1 := ops0 ++ [.createVersion ws version_name version_notes]
        let cv : Dict := match alGet "containerVersion" created with
          | some (Value.dict kvs) => kvs
          | _ => []
        match alGet "path" cv with
        | some (Value.str vp) =>
            if pyStrip vp ≠ "" then
              let published := env.publishResp (.str vp)
              (.ok (.dict [("created", .dict created), ("published", published)]),
               ops1 ++ [.publishVersion (.str vp)])
            else (.error VERSION_PATH_ERROR, ops1)
        | _ => (.error VERSION_PATH_ERROR, ops1)

end Workflow

/-! ## `src/managers/container_manager.py` (with the delete-by-name helpers
of `tag_manager.py` / `trigger_manager.py`) -/

namespace Container

/-- The remote collaborator of `ContainerManager`: the workspace snapshot
collections its list calls return, plus response oracles for the calls
whose responses the code reads. -/
structure CEnv where
  tags : List Dict
  triggers : List Dict
  vars : List Dict
  createVersionResp : String → String → String → Dict
  publishResp : Value → Value

/-- `str(entity.get("name", "")).strip()`, the name the container layer
matches and records entities by. -/
def trimmedName (e : Dict) : String := pyStrip (pyStr ((alGet "name" e).getD (.str "")))

/-- `_find_tag_by_name` / `_find_trigger_by_name` / `_find_variable_by_name`:
first entity whose `str(get("name", "")).strip()` equals the wanted name
(case-sensitive). -/
def findByName (entities : List Dict) (name : String) : Option Dict :=
  entities.find? (fun e => trimmedName e == name)

/-- `"Existing {kind} '{name}' is missing GTM path."` -/
def missingGtmPathMsg (kind name : String) : String :=
  "Existing " ++ kind ++ " \x27" ++ name ++ "\x27 is missing GTM path."

/-- `TagManager.delete_tag_by_name`. -/
def delete_tag_by_name (env : CEnv) (tag_name : String) (dry_run : Bool) :
    Except String Bool × List Op :=
  match findByName env.tags tag_name with
  | none => (.ok false, [])
  | some existing =>
      if dry_run then (.ok true, [])
      else
        let tag_path := (alGet "path" existing).getD .null
        if !(pyTruthy tag_path) then (.error (missingGtmPathMsg "tag" tag_name), [])
        else (.ok true, [Op.deleteTag tag_path])

/-- `TriggerManager.delete_trigger_by_name`. -/
def delete_trigger_by_name (env : CEnv) (trigger_name : String) (dry_run : Bool) :
    Except String Bool × List Op :=
  match findByName env.triggers trigger_name with
  | none => (.ok false, [])
  | some existing =>
      if dry_run then (.ok true, [])
      else
        let trigger_path := (alGet "path" existing).getD .null
        if !(pyTruthy trigger_path) then (.error (missingGtmPathMsg "trigger" trigger_name), [])
        else (.ok true, [Op.deleteTrigger trigger_path])

/-- `ContainerManager.delete_variable_by_name`. -/
def delete_variable_by_name (env : CEnv) (variable_name : String) (dry_run : Bool) :
    Except String Bool × List Op :=
  match findByName env.vars variable_name with
  | none => (.ok false, [])
  | some existing =>
      if dry_run then (.ok true, [])
      else
        let variable_path := (alGet "path" existing).getD .null
        if !(pyTruthy variable_path) then
          (.error (missingGtmPathMsg "variable" variable_name), [])
        else (.ok true, [Op.deleteVariable variable_path])

/-- `{str(entity.get("name", "")).strip() for entity in desired}` — the
desired-name set of `_delete_missing_entities` (as a list; membership is
what the code consults). -/
def desiredNameSet (entities : List Dict) : List String :=
  entities.map trimmedName

/-- `_delete_missing_for_type`: walk the current entities; a non-empty name
absent from the desired set is passed to `delete_fn`, and recorded in the
summary bucket when the deletion reports `True`. -/
def delete_missing_for_type (delete_fn : String → Except String Bool × List Op)
    (desired_names : List String) :
    List Dict → List String → Except String (List String) × List Op
  | [], bucket => (.ok bucket, [])
  | entity :: rest, bucket =>
      let name := trimmedName entity
      if name ≠ "" ∧ name ∉ desired_names then
        match delete_fn name with
        | (.error e, ops) => (.error e, ops)
        | (.ok deleted, ops) =>
            let bucket' := if deleted then bucket ++ [name] else bucket
            let res := delete_missing_for_type delete_fn desired_names rest bucket'
            (res.1, ops ++ res.2)
      else delete_missing_for_type delete_fn desired_names rest bucket

/-- `_delete_missing_entities`: tags first, then triggers, then variables;
each deleted bucket is sorted at the end. -/
def delete_missing_entities (env : CEnv)
    (desired_tags desired_triggers desired_variables : List Dict) (dry_run : Bool) :
    Except String (List String × List String × List String) × List Op :=
  match delete_missing_for_type (fun n => delete_tag_by_name env n dry_run)
      (desiredNameSet desired_tags) env.tags [] with
  | (.error e, ops) => (.error e, ops)
  | (.ok tagsDel, opsT) =>
      match delete_missing_for_type (fun n => delete_trigger_by_name env n dry_run)
          (desiredNameSet desired_triggers) env.triggers [] with
      | (.error e, ops) => (.error e, opsT ++ ops)
      | (.ok trigsDel, opsG) =>
          match delete_missing_for_type (fun n => delete_variable_by_name env n dry_run)
              (desiredNameSet desired_variables) env.vars [] with
          | (.error e, ops) => (.error e, opsT ++ opsG ++ ops)
          | (.ok varsDel, opsV) =>
              (.ok (pySortedBy id tagsDel, pySortedBy id trigsDel, pySortedBy id varsDel),
               opsT ++ opsG ++ opsV)

/-- `ContainerManager.publish_workspace`: the workspace path is pure string
formatting; dry-run returns the intent record without any remote call;
otherwise create a version, extract its path, and publish it. -/
def publish_workspace (env : CEnv)
    (account_id container_id workspace_id version_name notes : String)
    (dry_run : Bool) : Except String Value × List Op :=
  let ws := workspacePathOf account_id container_id workspace_id
  if dry_run then
    (.ok (.dict [("dry_run", .bool true), ("workspacePath", .str ws),
                 ("versionName", .str version_name), ("notes", .str notes)]),
     [])
  else
    let create_result := env.createVersionResp ws version_name notes
    let ops1 := [Op.createVersion ws version_name notes]
    -- `create_result.get("containerVersion", create_result)`
    let container_version : Value := (alGet "containerVersion" create_result).getD
      (.dict create_result)
    match container_version with
    | .dict cv =>
        let version_path := (alGet "path" cv).getD .null
        if !(pyTruthy version_path) then
          (.error "Container version path missing from create_version response.", ops1)
        else
          let publish_result := env.publishResp version_path
          (.ok (.dict [("workspacePath", .str ws), ("containerVersionPath", version_path),
                       ("createVersion", .dict create_result), ("publish", publish_result)]),
           ops1 ++ [Op.publishVersion version_path])
    -- a non-mapping `containerVersion` value crashes Python's `.get` call
    | _ => (.error "AttributeError: .get on non-mapping containerVersion", ops1)

end Container

/-! ## Supporting lemmas for the claim theorems -/

namespace Workflow

/-- A desired sequence always replaces the current value wholesale. -/
theorem merge_list (x : Value) (xs : List Value) :
    merge_desired_into_current x (.list xs) = .list xs := by
  cases x <;> rfl

/-- Keys absent from the desired dict are carried over unchanged. -/
theorem mergeKvs_lookup_not_hasKey :
    ∀ (d c : List (String × Value)) (k : String), alHasKey k d = false →
      alGet k (mergeKvs c d) = alGet k c
  | [], _, _, _ => rfl
  | (k0, v0) :: rest, c, k, h => by
      simp only [alHasKey, List.any_cons, Bool.or_eq_false_iff,
        decide_eq_false_iff_not] at h
      have hk : ¬ k = k0 := fun hc => h.1 hc.symm
      have hrest : alHasKey k rest = false := by simpa [alHasKey] using h.2
      by_cases hv : v0 = Value.null
      · rw [mergeKvs, if_pos hv, mergeKvs_lookup_not_hasKey rest _ k hrest,
          alGet_alInsert_ne _ _ _ _ hk]
      · rw [mergeKvs, if_neg hv, mergeKvs_lookup_not_hasKey rest _ k hrest,
          alGet_alInsert_ne _ _ _ _ hk]

/-- What the merge loop stores under each desired key (for duplicate-free
desired keys, the Python-dict invariant). -/
theorem mergeKvs_lookup :
    ∀ (d c : List (String × Value)) (k : String) (v : Value),
      (alKeys d).Nodup → alGet k d = some v →
      alGet k (mergeKvs c d) =
        some (if v = Value.null then Value.null
              else merge_desired_into_current ((alGet k c).getD Value.null) v)
  | [], _, k, v, _, h => by simp [alGet] at h
  | (k0, v0) :: rest, c, k, v, hnd, h => by
      rw [alKeys, List.map_cons, List.nodup_cons] at hnd
      obtain ⟨hk0, hndr⟩ := hnd
      by_cases hk : k = k0
      · subst hk
        rw [alGet, if_pos rfl] at h
        injection h with h'
        subst h'
        have hnk : alHasKey k rest = false := (alHasKey_eq_false_iff _ _).mpr hk0
        by_cases hv : v0 = Value.null
        · rw [mergeKvs, if_pos hv, mergeKvs_lookup_not_hasKey rest _ k hnk,
            alGet_alInsert_self, if_pos hv]
        · rw [mergeKvs, if_neg hv, mergeKvs_lookup_not_hasKey rest _ k hnk,
            alGet_alInsert_self, if_neg hv]
      · rw [alGet, if_neg hk] at h
        by_cases hv : v0 = Value.null
        · rw [mergeKvs, if_pos hv, mergeKvs_lookup rest _ k v hndr h,
            alGet_alInsert_ne _ _ _ _ hk]
        · rw [mergeKvs, if_neg hv, mergeKvs_lookup rest _ k v hndr h,
            alGet_alInsert_ne _ _ _ _ hk]

/-- A deletion loop never issues more delete calls than names it records. -/
theorem applyDeleteLoop_ops_le_names (ws coll id_key : String) (mkOp : Value → Op)
    (dry : Bool) (names : List String) :
    ∀ idx : List (String × Dict),
      (applyDeleteLoop ws coll id_key mkOp dry names idx).2.length ≤
        (applyDeleteLoop ws coll id_key mkOp dry names idx).1.length
  | [] => Nat.le_refl 0
  | (k0, e0) :: rest => by
      have ih := applyDeleteLoop_ops_le_names ws coll id_key mkOp dry names rest
      rw [applyDeleteLoop]
      by_cases hk : k0 ∈ names
      · rw [if_pos hk]; exact ih
      · rw [if_neg hk]
        by_cases hd : dry = true
        · subst hd; simpa using Nat.le_succ_of_le ih
        · rw [Bool.not_eq_true] at hd
          subst hd
          simp only [Bool.false_eq_true, if_false]
          cases hp : entity_path_from_workspace ws coll e0 id_key with
          | none => simpa using Nat.le_succ_of_le ih
          | some p => simpa using Nat.succ_le_succ ih

/-- A current entity missing from the desired set but lacking any path is
recorded as deleted while strictly fewer delete calls than deleted names
are issued. -/
theorem applyDeleteLoop_ghost (ws coll id_key : String) (mkOp : Value → Op)
    (names : List String) :
    ∀ (idx : List (String × Dict)) (k : String) (e : Dict),
      (k, e) ∈ idx → k ∉ names →
      entity_path_from_workspace ws coll e id_key = none →
      loopDisplay e k ∈ (applyDeleteLoop ws coll id_key mkOp false names idx).1 ∧
      (applyDeleteLoop ws coll id_key mkOp false names idx).2.length <
        (applyDeleteLoop ws coll id_key mkOp false names idx).1.length
  | [], k, e, hmem, _, _ => absurd hmem (List.not_mem_nil _)
  | (k0, e0) :: rest, k, e, hmem, hnd, hpath => by
      rw [applyDeleteLoop]
      rcases List.mem_cons.mp hmem with heq | hmem'
      · injection heq with h1 h2
        subst h1; subst h2
        rw [if_neg hnd]
        simp only [Bool.false_eq_true, if_false, hpath]
        exact ⟨List.mem_cons_self _ _,
          Nat.lt_succ_of_le (applyDeleteLoop_ops_le_names ws coll id_key mkOp false names rest)⟩
      · have ih := applyDeleteLoop_ghost ws coll id_key mkOp names rest k e hmem' hnd hpath
        by_cases hk : k0 ∈ names
        · rw [if_pos hk]; exact ih
        · rw [if_neg hk]
          simp only [Bool.false_eq_true, if_false]
          cases hp : entity_path_from_workspace ws coll e0 id_key with
          | none => exact ⟨List.mem_cons_of_mem _ ih.1, Nat.lt_succ_of_lt ih.2⟩
          | some p =>
              exact ⟨List.mem_cons_of_mem _ ih.1, by simpa using Nat.succ_lt_succ ih.2⟩

/-- Successful reference resolution: whitespace-only names are silently
skipped, and when every non-whitespace (string-coerced) name maps to a
non-empty id, the resolver returns exactly the mapped ids of the
non-whitespace names, in order. -/
theorem resolve_trigger_ids_ok (tn lbl : String) (m : List (String × String)) :
    ∀ names : List String,
      (∀ s ∈ names, pyStrip s ≠ "" → ∃ tid, alGet (pyNorm s) m = some tid ∧ tid ≠ "") →
      resolve_trigger_ids tn names m lbl =
        .ok ((names.filter (fun s => decide (pyStrip s ≠ ""))).map
          (fun s => (alGet (pyNorm s) m).getD ""))
  | [], _ => rfl
  | s :: rest, h => by
      have hrec := resolve_trigger_ids_ok tn lbl m rest
        (fun x hx => h x (List.mem_cons_of_mem _ hx))
      by_cases hs : pyStrip s = ""
      · rw [List.filter_cons, if_neg (show ¬ decide (pyStrip s ≠ "") = true by simp [hs])]
        simp only [resolve_trigger_ids, if_pos hs, hrec]
      · obtain ⟨tid, htid, hne⟩ := h s (List.mem_cons_self _ _) hs
        rw [List.filter_cons, if_pos (show decide (pyStrip s ≠ "") = true by simp [hs])]
        simp only [resolve_trigger_ids, if_neg hs, htid, if_neg hne, hrec, Except.map,
          List.map_cons, Option.getD_some]

/-- Failing reference resolution: when some non-whitespace name has no
(non-empty) mapped id, the resolver raises the error naming the tag and one
such missing trigger name. -/
theorem resolve_trigger_ids_err (tn lbl : String) (m : List (String × String)) :
    ∀ names : List String,
      (∃ s ∈ names, pyStrip s ≠ "" ∧
        (alGet (pyNorm s) m = none ∨ alGet (pyNorm s) m = some "")) →
      ∃ s ∈ names, pyStrip s ≠ "" ∧
        resolve_trigger_ids tn names m lbl = .error (missingTriggerMsg tn lbl s)
  | [], h => absurd h (by simp)
  | s :: rest, h => by
      by_cases hs : pyStrip s = ""
      · have hrest : ∃ x ∈ rest, pyStrip x ≠ "" ∧
            (alGet (pyNorm x) m = none ∨ alGet (pyNorm x) m = some "") := by
          rcases h with ⟨x, hx, hxs, hmiss⟩
          rcases List.mem_cons.mp hx with rfl | hx'
          · exact absurd hs hxs
          · exact ⟨x, hx', hxs, hmiss⟩
        obtain ⟨x, hx, hxs, heq⟩ := resolve_trigger_ids_err tn lbl m rest hrest
        refine ⟨x, List.mem_cons_of_mem _ hx, hxs, ?_⟩
        simp only [resolve_trigger_ids, if_pos hs]
        exact heq
      · cases hget : alGet (pyNorm s) m with
        | none =>
            refine ⟨s, List.mem_cons_self _ _, hs, ?_⟩
            simp only [resolve_trigger_ids, if_neg hs, hget]
        | some tid =>
            by_cases htid : tid = ""
            · refine ⟨s, List.mem_cons_self _ _, hs, ?_⟩
              simp only [resolve_trigger_ids, if_neg hs, hget, if_pos htid]
            · have hrest : ∃ x ∈ rest, pyStrip x ≠ "" ∧
                  (alGet (pyNorm x) m = none ∨ alGet (pyNorm x) m = some "") := by
                rcases h with ⟨x, hx, hxs, hmiss⟩
                rcases List.mem_cons.mp hx with rfl | hx'
                · rcases hmiss with hm | hm
                  · rw [hget] at hm; cases hm
                  · rw [hget] at hm
                    injection hm with hm'
                    exact absurd hm' htid
                · exact ⟨x, hx', hxs, hmiss⟩
              obtain ⟨x, hx, hxs, heq⟩ := resolve_trigger_ids_err tn lbl m rest hrest
              refine ⟨x, List.mem_cons_of_mem _ hx, hxs, ?_⟩
              simp only [resolve_trigger_ids, if_neg hs, hget, if_neg htid, heq,
                Except.map]

/-- A tag carrying both `blockingTriggerNames` and `blockingTriggerId` is
rejected by the resolver (with whichever configuration or reference error
comes first). -/
theorem tag_resolve_blocking_err (tag : Dict) (m : List (String × String))
    (hbn : alHasKey "blockingTriggerNames" tag = true)
    (hbi : alHasKey "blockingTriggerId" tag = true) :
    ∃ e, tag_with_resolved_triggers tag m = .error e := by
  cases hfboth : alHasKey "firingTriggerNames" tag && alHasKey "firingTriggerId" tag with
  | true =>
      exact ⟨_, by simp only [tag_with_resolved_triggers, hfboth]; rw [if_pos trivial]⟩
  | false =>
      cases hg : alGet "firingTriggerNames" tag with
      | none =>
          refine ⟨bothBlockingMsg (loopDisplay tag "?"), ?_⟩
          simp only [tag_with_resolved_triggers, hfboth, hg, loopDisplay]
          rw [if_neg (by simp), if_pos (by rw [hbn, hbi]; rfl)]
      | some v =>
          cases v with
          | list names =>
              cases hres : resolve_trigger_ids (loopDisplay tag "?") (names.map pyStr) m
                  "trigger" with
              | error e =>
                  refine ⟨e, ?_⟩
                  simp only [tag_with_resolved_triggers, hfboth, hg, loopDisplay] at hres ⊢
                  rw [if_neg (by simp), hres]
                  rfl
              | ok resolved =>
                  refine ⟨bothBlockingMsg (loopDisplay tag "?"), ?_⟩
                  simp only [tag_with_resolved_triggers, hfboth, hg, loopDisplay] at hres ⊢
                  rw [if_neg (by simp), hres]
                  have e1 : alHasKey "blockingTriggerNames"
                      (alErase (alInsert tag "firingTriggerId"
                        (.list (resolved.map Value.str))) "firingTriggerNames") = true := by
                    rw [alHasKey_alErase_ne _ _ _ (by decide),
                      alHasKey_alInsert_ne _ _ _ _ (by decide), hbn]
                  have e2 : alHasKey "blockingTriggerId"
                      (alErase (alInsert tag "firingTriggerId"
                        (.list (resolved.map Value.str))) "firingTriggerNames") = true := by
                    rw [alHasKey_alErase_ne _ _ _ (by decide),
                      alHasKey_alInsert_ne _ _ _ _ (by decide), hbi]
                  simp only [Except.map, e1, e2, Bool.and_self]
                  rw [if_pos trivial]
          | null =>
              refine ⟨bothBlockingMsg (loopDisplay tag "?"), ?_⟩
              simp only [tag_with_resolved_triggers, hfboth, hg, loopDisplay]
              rw [if_neg (by simp), if_pos (by rw [hbn, hbi]; rfl)]
          | bool b =>
              refine ⟨bothBlockingMsg (loopDisplay tag "?"), ?_⟩
              simp only [tag_with_resolved_triggers, hfboth, hg, loopDisplay]
              rw [if_neg (by simp), if_pos (by rw [hbn, hbi]; rfl)]
          | int n =>
              refine ⟨bothBlockingMsg (loopDisplay tag "?"), ?_⟩
              simp only [tag_with_resolved_triggers, hfboth, hg, loopDisplay]
              rw [if_neg (by simp), if_pos (by rw [hbn, hbi]; rfl)]
          | str s =>
              refine ⟨bothBlockingMsg (loopDisplay tag "?"), ?_⟩
              simp only [tag_with_resolved_triggers, hfboth, hg, loopDisplay]
              rw [if_neg (by simp), if_pos (by rw [hbn, hbi]; rfl)]
          | dict kvs =>
              refine ⟨bothBlockingMsg (loopDisplay tag "?"), ?_⟩
              simp only [tag_with_resolved_triggers, hfboth, hg, loopDisplay]
              rw [if_neg (by simp), if_pos (by rw [hbn, hbi]; rfl)]

/-- What a deletion loop records as deleted: the display names of the
current-index entries whose key is not desired, in index order. -/
theorem applyDeleteLoop_deleted (ws coll id_key : String) (mkOp : Value → Op)
    (dry : Bool) (names : List String) :
    ∀ idx : List (String × Dict),
      (applyDeleteLoop ws coll id_key mkOp dry names idx).1 =
        (idx.filter (fun p => decide (p.1 ∉ names))).map
          (fun p => loopDisplay p.2 p.1)
  | [] => rfl
  | (k0, e0) :: rest => by
      have ih := applyDeleteLoop_deleted ws coll id_key mkOp dry names rest
      rw [applyDeleteLoop, List.filter_cons]
      by_cases hk : k0 ∈ names
      · rw [if_pos hk, if_neg (show ¬ decide ((k0, e0).1 ∉ names) = true by simp [hk]), ih]
      · rw [if_neg hk, if_pos (show decide ((k0, e0).1 ∉ names) = true by simp [hk])]
        cases dry with
        | true => simp [List.map_cons, ih]
        | false =>
            cases hp : entity_path_from_workspace ws coll e0 id_key <;>
              simp [hp, List.map_cons, ih]

/-- The delete calls a non-dry deletion loop issues: one per missing entry
whose record yields a path, in index order. -/
theorem applyDeleteLoop_ops (ws coll id_key : String) (mkOp : Value → Op)
    (names : List String) :
    ∀ idx : List (String × Dict),
      (applyDeleteLoop ws coll id_key mkOp false names idx).2 =
        (idx.filter (fun p => decide (p.1 ∉ names))).filterMap
          (fun p => (entity_path_from_workspace ws coll p.2 id_key).map
            (fun pa => mkOp (.str pa)))
  | [] => rfl
  | (k0, e0) :: rest => by
      have ih := applyDeleteLoop_ops ws coll id_key mkOp names rest
      rw [applyDeleteLoop, List.filter_cons]
      by_cases hk : k0 ∈ names
      · rw [if_pos hk, if_neg (show ¬ decide ((k0, e0).1 ∉ names) = true by simp [hk]), ih]
      · rw [if_neg hk, if_pos (show decide ((k0, e0).1 ∉ names) = true by simp [hk])]
        cases hp : entity_path_from_workspace ws coll e0 id_key <;>
          simp [hp, List.filterMap_cons, ih]

/-- Every operation a deletion loop issues is built by its `mkOp`. -/
theorem applyDeleteLoop_ops_kind (ws coll id_key : String) (mkOp : Value → Op)
    (names : List String) (idx : List (String × Dict)) :
    ∀ op ∈ (applyDeleteLoop ws coll id_key mkOp false names idx).2,
      ∃ pth, op = mkOp pth := by
  intro op hop
  rw [applyDeleteLoop_ops] at hop
  rcases List.mem_filterMap.mp hop with ⟨p, -, hf⟩
  cases hpath : entity_path_from_workspace ws coll p.2 id_key with
  | none => rw [hpath] at hf; cases hf
  | some pa =>
      rw [hpath] at hf
      injection hf with hf'
      exact ⟨.str pa, hf'.symm⟩

end Workflow

namespace Container

/-- Where a tag deletion's operations come from: a found current tag with
that trimmed name, deleted by its `path` field. -/
theorem delete_tag_by_name_ops (env : CEnv) (n : String) (dry : Bool) :
    ∀ op ∈ (delete_tag_by_name env n dry).2, ∃ e, e ∈ env.tags ∧
      trimmedName e = n ∧ op = Op.deleteTag ((alGet "path" e).getD .null) := by
  intro op hop
  unfold delete_tag_by_name at hop
  cases hfind : findByName env.tags n with
  | none => rw [hfind] at hop; cases hop
  | some existing =>
      rw [hfind] at hop
      by_cases hd : dry = true
      · subst hd; simp at hop
      · rw [Bool.not_eq_true] at hd
        subst hd
        simp only [Bool.false_eq_true, if_false] at hop
        by_cases hp : pyTruthy ((alGet "path" existing).getD .null) = true
        · rw [if_neg (by simp [hp])] at hop
          rcases List.mem_singleton.mp hop with rfl
          refine ⟨existing, List.mem_of_find?_eq_some hfind, ?_, rfl⟩
          simpa using List.find?_some hfind
        · rw [if_pos (by simp [Bool.not_eq_true] at hp ⊢; exact hp)] at hop
          cases hop

/-- Where a trigger deletion's operations come from. -/
theorem delete_trigger_by_name_ops (env : CEnv) (n : String) (dry : Bool) :
    ∀ op ∈ (delete_trigger_by_name env n dry).2, ∃ e, e ∈ env.triggers ∧
      trimmedName e = n ∧ op = Op.deleteTrigger ((alGet "path" e).getD .null) := by
  intro op hop
  unfold delete_trigger_by_name at hop
  cases hfind : findByName env.triggers n with
  | none => rw [hfind] at hop; cases hop
  | some existing =>
      rw [hfind] at hop
      by_cases hd : dry = true
      · subst hd; simp at hop
      · rw [Bool.not_eq_true] at hd
        subst hd
        simp only [Bool.false_eq_true, if_false] at hop
        by_cases hp : pyTruthy ((alGet "path" existing).getD .null) = true
        · rw [if_neg (by simp [hp])] at hop
          rcases List.mem_singleton.mp hop with rfl
          refine ⟨existing, List.mem_of_find?_eq_some hfind, ?_, rfl⟩
          simpa using List.find?_some hfind
        · rw [if_pos (by simp [Bool.not_eq_true] at hp ⊢; exact hp)] at hop
          cases hop

/-- Where a variable deletion's operations come from. -/
theorem delete_variable_by_name_ops (env : CEnv) (n : String) (dry : Bool) :
    ∀ op ∈ (delete_variable_by_name env n dry).2, ∃ e, e ∈ env.vars ∧
      trimmedName e = n ∧ op = Op.deleteVariable ((alGet "path" e).getD .null) := by
  intro op hop
  unfold delete_variable_by_name at hop
  cases hfind : findByName env.vars n with
  | none => rw [hfind] at hop; cases hop
  | some existing =>
      rw [hfind] at hop
      by_cases hd : dry = true
      · subst hd; simp at hop
      · rw [Bool.not_eq_true] at hd
        subst hd
        simp only [Bool.false_eq_true, if_false] at hop
        by_cases hp : pyTruthy ((alGet "path" existing).getD .null) = true
        · rw [if_neg (by simp [hp])] at hop
          rcases List.mem_singleton.mp hop with rfl
          refine ⟨existing, List.mem_of_find?_eq_some hfind, ?_, rfl⟩
          simpa using List.find?_some hfind
        · rw [if_pos (by simp [Bool.not_eq_true] at hp ⊢; exact hp)] at hop
          cases hop

/-- Every operation a per-type delete-missing pass issues comes from a
non-empty name absent from the desired set, through its delete function. -/
theorem delete_missing_for_type_ops (fn : String → Except String Bool × List Op)
    (names : List String) :
    ∀ (curr : List Dict) (bucket : List String) (op : Op),
      op ∈ (delete_missing_for_type fn names curr bucket).2 →
      ∃ n, n ≠ "" ∧ n ∉ names ∧ op ∈ (fn n).2
  | [], _, op, h => absurd h (List.not_mem_nil op)
  | entity :: rest, bucket, op, h => by
      rw [delete_missing_for_type] at h
      by_cases hc : trimmedName entity ≠ "" ∧ trimmedName entity ∉ names
      · rw [if_pos hc] at h
        rcases hfn : fn (trimmedName entity) with ⟨r, ops⟩
        rw [hfn] at h
        cases r with
        | error e =>
            exact ⟨trimmedName entity, hc.1, hc.2, by rw [hfn]; exact h⟩
        | ok deleted =>
            rcases List.mem_append.mp h with h1 | h2
            · exact ⟨trimmedName entity, hc.1, hc.2, by rw [hfn]; exact h1⟩
            · exact delete_missing_for_type_ops fn names rest _ op h2
      · rw [if_neg hc] at h
        exact delete_missing_for_type_ops fn names rest bucket op h

/-- The delete-missing trace decomposes into a tag segment, then a trigger
segment, then a variable segment, each operation arising from a current
entity of that type whose trimmed name is absent from the desired set. -/
theorem delete_missing_entities_decomp (env : CEnv) (dTags dTrigs dVars : List Dict) :
    ∃ t g v,
      (delete_missing_entities env dTags dTrigs dVars false).2 = t ++ g ++ v ∧
      (∀ op ∈ t, ∃ e, e ∈ env.tags ∧ trimmedName e ∉ desiredNameSet dTags ∧
        op = Op.deleteTag ((alGet "path" e).getD .null)) ∧
      (∀ op ∈ g, ∃ e, e ∈ env.triggers ∧ trimmedName e ∉ desiredNameSet dTrigs ∧
        op = Op.deleteTrigger ((alGet "path" e).getD .null)) ∧
      (∀ op ∈ v, ∃ e, e ∈ env.vars ∧ trimmedName e ∉ desiredNameSet dVars ∧
        op = Op.deleteVariable ((alGet "path" e).getD .null)) := by
  have hTops : ∀ op ∈ (delete_missing_for_type (fun n => delete_tag_by_name env n false)
      (desiredNameSet dTags) env.tags []).2, ∃ e, e ∈ env.tags ∧
      trimmedName e ∉ desiredNameSet dTags ∧
      op = Op.deleteTag ((alGet "path" e).getD .null) := by
    intro op hop
    obtain ⟨n, -, hnmem, hfn⟩ := delete_missing_for_type_ops _ _ env.tags [] op hop
    obtain ⟨e, hmem, hname, heq⟩ := delete_tag_by_name_ops env n false op hfn
    exact ⟨e, hmem, hname ▸ hnmem, heq⟩
  have hGops : ∀ op ∈ (delete_missing_for_type (fun n => delete_trigger_by_name env n false)
      (desiredNameSet dTrigs) env.triggers []).2, ∃ e, e ∈ env.triggers ∧
      trimmedName e ∉ desiredNameSet dTrigs ∧
      op = Op.deleteTrigger ((alGet "path" e).getD .null) := by
    intro op hop
    obtain ⟨n, -, hnmem, hfn⟩ := delete_missing_for_type_ops _ _ env.triggers [] op hop
    obtain ⟨e, hmem, hname, heq⟩ := delete_trigger_by_name_ops env n false op hfn
    exact ⟨e, hmem, hname ▸ hnmem, heq⟩
  have hVops : ∀ op ∈ (delete_missing_for_type (fun n => delete_variable_by_name env n false)
      (desiredNameSet dVars) env.vars []).2, ∃ e, e ∈ env.vars ∧
      trimmedName e ∉ desiredNameSet dVars ∧
      op = Op.deleteVariable ((alGet "path" e).getD .null) := by
    intro op hop
    obtain ⟨n, -, hnmem, hfn⟩ := delete_missing_for_type_ops _ _ env.vars [] op hop
    obtain ⟨e, hmem, hname, heq⟩ := delete_variable_by_name_ops env n false op hfn
    exact ⟨e, hmem, hname ▸ hnmem, heq⟩
  rw [delete_missing_entities]
  rcases hT : delete_missing_for_type (fun n => delete_tag_by_name env n false)
      (desiredNameSet dTags) env.tags [] with ⟨rT, opsT⟩
  rw [hT] at hTops
  cases rT with
  | error e => exact ⟨opsT, [], [], by simp, hTops, by simp, by simp⟩
  | ok tagsDel =>
      rcases hG : delete_missing_for_type (fun n => delete_trigger_by_name env n false)
          (desiredNameSet dTrigs) env.triggers [] with ⟨rG, opsG⟩
      rw [hG] at hGops
      cases rG with
      | error e => exact ⟨opsT, opsG, [], by simp, hTops, hGops, by simp⟩
      | ok trigsDel =>
          rcases hV : delete_missing_for_type (fun n => delete_variable_by_name env n false)
              (desiredNameSet dVars) env.vars [] with ⟨rV, opsV⟩
          rw [hV] at hVops
          cases rV with
          | error e => exact ⟨opsT, opsG, opsV, by simp, hTops, hGops, hVops⟩
          | ok varsDel => exact ⟨opsT, opsG, opsV, by simp, hTops, hGops, hVops⟩

end Container

/-! ## Concrete environments used by the closed claim theorems -/

/-- An empty remote workspace whose get-or-create call answers with the
workspace payload the repository's own tests use. -/
def emptyWEnv : Workflow.WEnv :=
  { getOrCreateWorkspaceResp := fun a c _ _ =>
      [("name", .str "iac"), ("workspaceId", .str "1"),
       ("path", .str (workspacePathOf a c "1"))]
    currentVariables := []
    currentTriggers := []
    currentTags := []
    createTriggerResp := fun _ _ => []
    updateTriggerResp := fun _ _ => []
    createVersionResp := fun _ _ _ => []
    publishResp := fun _ => .null }

/-- The desired snapshot of the repository's own test
`test_sync_workspace_dry_run_allows_new_trigger_name_references`: a new
trigger plus a new tag referencing it by name. -/
def c1Snapshot : Dict :=
  [("variables", .list []),
   ("triggers", .list [.dict [("name", .str "New Trigger"), ("type", .str "PAGEVIEW")]]),
   ("tags", .list [.dict [("name", .str "New Tag"), ("type", .str "html"),
     ("firingTriggerNames", .list [.str "New Trigger"])]])]

/-- A desired snapshot containing a tag with an explicitly empty
`firingTriggerId` list. -/
def c4Snapshot : Dict :=
  [("tags", .list [.dict [("name", .str "t"), ("type", .str "html"),
     ("firingTriggerId", .list [])]])]

/-! ## Claim theorems -/

/-- **C1** — The dry-run no-op guarantee is violated by the code on the
repository's own test input: with an empty workspace and a desired
snapshot creating trigger `New Trigger` plus tag `New Tag` firing on it,
`sync_workspace(dry_run=True)` raises the missing-trigger `ValueError`
instead of returning a completed summary (dry run skips the trigger
creation, so no id ever enters the name→id map the tag resolution uses);
the no-mutation half of the claim does hold: the trace carries no
create/update/delete on the entity collaborators. -/
theorem c1_dry_run_raises_on_same_pass_reference :
    (Workflow.sync_workspace emptyWEnv c1Snapshot "1" "2" "iac" true false true).1 =
      .error (Workflow.missingTriggerMsg "New Tag" "trigger" "New Trigger") ∧
    (Workflow.sync_workspace emptyWEnv c1Snapshot "1" "2" "iac" true false true).2.filter
      Op.isEntityMutation = [] := by decide

/-- **C4 counterexample** — a tag absent from the current workspace whose
post-resolution `firingTriggerId` is the *empty* list is not rejected: the
sync completes and issues the remote create with the empty firing-trigger
id list. -/
theorem c4_counterexample_empty_trigger_list_created :
    (Workflow.sync_workspace emptyWEnv c4Snapshot "1" "2" "iac" false false true).2.filter
        Op.isEntityMutation =
      [Op.createTag "accounts/1/containers/2/workspaces/1"
        (.dict [("name", .str "t"), ("type", .str "html"),
                ("firingTriggerId", .list [])])] ∧
    ((Workflow.sync_workspace emptyWEnv c4Snapshot "1" "2" "iac" false false true).1.map
      (fun s => s.tags.created)) = .ok ["t"] := by decide

/-- **C4 (amended)** — tag creation requires the post-resolution
`firingTriggerId` to *be a list* (possibly empty): when a desired tag is
absent from the current index and its resolved `firingTriggerId` is
missing or not a list, the sync-loop iteration raises the
cannot-create error and issues no remote operation for that tag. -/
theorem c4_create_requires_trigger_id_list
    (ws : String) (dry_run update_existing : Bool)
    (tag_by_name : List (String × Dict)) (m : List (String × String))
    (k : String) (raw rt : Dict) (s : Workflow.EntitySummary)
    (hres : Workflow.tag_with_resolved_triggers raw m = .ok rt)
    (habsent : alGet k tag_by_name = none)
    (hnotlist : ∀ xs, alGet "firingTriggerId" rt ≠ some (Value.list xs)) :
    Workflow.syncTagStep ws dry_run update_existing tag_by_name m k raw s =
      (.error (Workflow.cannotCreateTagMsg (Workflow.loopDisplay rt k)), []) := by
  cases hg : alGet "firingTriggerId" rt with
  | none => simp only [Workflow.syncTagStep, hres, habsent, hg]
  | some v =>
      cases v with
      | list xs => exact absurd hg (hnotlist xs)
      | null => simp only [Workflow.syncTagStep, hres, habsent, hg]
      | bool b => simp only [Workflow.syncTagStep, hres, habsent, hg]
      | int n => simp only [Workflow.syncTagStep, hres, habsent, hg]
      | str t => simp only [Workflow.syncTagStep, hres, habsent, hg]
      | dict kvs => simp only [Workflow.syncTagStep, hres, habsent, hg]

/-- Witness for C4 at a concrete tag with no firing-trigger field at all. -/
theorem c4_create_requires_trigger_id_list_witness :
    Workflow.syncTagStep "ws" false true [] [] "t" [("name", Value.str "t")] .init =
      (.error (Workflow.cannotCreateTagMsg "t"), []) :=
  c4_create_requires_trigger_id_list "ws" false true [] [] "t"
    [("name", Value.str "t")] [("name", Value.str "t")] .init
    (by decide) (by decide) (fun xs h => by simp [alGet] at h)

/-- **C2 counterexample** — the helpers-layer diff does not sort its lists
case-insensitively: desired names `a` and `B` against an empty current
state yield `create = ["B", "a"]`, which is code-point order, not
case-insensitive ascending order (`["a", "B"]`). -/
theorem c2_counterexample_case_sensitive_sort :
    (Helpers.diff_entities_by_name
        [[("name", Value.str "a")], [("name", Value.str "B")]] [] none).create =
      ["B", "a"] ∧
    ¬ List.Pairwise (fun a b => ciLe a b = true) ["B", "a"] := by decide

/-- **C2 (amended)** — the workflow-layer `diff_named_entities` satisfies the
claim exactly: over the case-insensitive trimmed-name indexes, `create`
holds the display names of desired entries absent from the current index,
`update` those present in both whose canonicalized forms differ, `delete`
the current entries absent from the desired index, each list sorted
case-insensitively ascending.  The helpers-layer `diff_entities_by_name`
computes the same classification but over case-*sensitive* trimmed-name
indexes, returns the trimmed index keys rather than raw display names, and
sorts each list in case-sensitive code-point order. -/
theorem c2_diff_by_name (desired current : List Dict)
    (read_only_fields : Option (List String)) :
    ((∀ n, n ∈ (Workflow.diff_named_entities desired current).create ↔
        ∃ p ∈ Workflow.indexByName desired,
          alGet p.1 (Workflow.indexByName current) = none ∧
          Workflow.displayName p.2 p.1 = n) ∧
     (∀ n, n ∈ (Workflow.diff_named_entities desired current).update ↔
        ∃ p ∈ Workflow.indexByName desired, ∃ cur,
          alGet p.1 (Workflow.indexByName current) = some cur ∧
          Workflow.normalize_for_diff p.2 ≠ Workflow.normalize_for_diff cur ∧
          Workflow.displayName p.2 p.1 = n) ∧
     (∀ n, n ∈ (Workflow.diff_named_entities desired current).delete ↔
        ∃ p ∈ Workflow.indexByName current,
          alHasKey p.1 (Workflow.indexByName desired) = false ∧
          Workflow.displayName p.2 p.1 = n) ∧
     (Workflow.diff_named_entities desired current).create.Pairwise
        (fun a b => ciLe a b = true) ∧
     (Workflow.diff_named_entities desired current).update.Pairwise
        (fun a b => ciLe a b = true) ∧
     (Workflow.diff_named_entities desired current).delete.Pairwise
        (fun a b => ciLe a b = true)) ∧
    ((∀ n, n ∈ (Helpers.diff_entities_by_name desired current read_only_fields).create ↔
        n ∈ alKeys (Helpers.indexByName desired) ∧
          alHasKey n (Helpers.indexByName current) = false) ∧
     (∀ n, n ∈ (Helpers.diff_entities_by_name desired current read_only_fields).update ↔
        (n ∈ alKeys (Helpers.indexByName desired) ∧
          alHasKey n (Helpers.indexByName current) = true) ∧
        Helpers.canonicalize (Helpers.roFields read_only_fields)
            (.dict ((alGet n (Helpers.indexByName desired)).getD [])) ≠
          Helpers.canonicalize (Helpers.roFields read_only_fields)
            (.dict ((alGet n (Helpers.indexByName current)).getD []))) ∧
     (∀ n, n ∈ (Helpers.diff_entities_by_name desired current read_only_fields).delete ↔
        n ∈ alKeys (Helpers.indexByName current) ∧
          alHasKey n (Helpers.indexByName desired) = false) ∧
     (Helpers.diff_entities_by_name desired current read_only_fields).create.Pairwise
        (fun a b => strLe a b = true) ∧
     (Helpers.diff_entities_by_name desired current read_only_fields).update.Pairwise
        (fun a b => strLe a b = true) ∧
     (Helpers.diff_entities_by_name desired current read_only_fields).delete.Pairwise
        (fun a b => strLe a b = true)) := by
  constructor
  · refine ⟨fun n => ?_, fun n => ?_, fun n => ?_, ?_, ?_, ?_⟩
    · simp only [Workflow.diff_named_entities, pySortedBy, mem_pySorted,
        List.mem_filterMap, Option.ite_none_right_eq_some, Option.some.injEq,
        Option.isNone_iff_eq_none]
    · simp only [Workflow.diff_named_entities, pySortedBy, mem_pySorted,
        List.mem_filterMap]
      constructor
      · rintro ⟨p, hp, hf⟩
        cases hcur : alGet p.1 (Workflow.indexByName current) with
        | none => rw [hcur] at hf; cases hf
        | some cur =>
            rw [hcur] at hf
            have hf' : (if Workflow.normalize_for_diff p.2 ≠ Workflow.normalize_for_diff cur
                then some (Workflow.displayName p.2 p.1) else none) = some n := hf
            by_cases hne : Workflow.normalize_for_diff p.2 ≠ Workflow.normalize_for_diff cur
            · rw [if_pos hne] at hf'
              injection hf' with hf''
              exact ⟨p, hp, cur, hcur, hne, hf''⟩
            · rw [if_neg hne] at hf'; cases hf'
      · rintro ⟨p, hp, cur, hcur, hne, rfl⟩
        refine ⟨p, hp, ?_⟩
        rw [hcur]
        show (if Workflow.normalize_for_diff p.2 ≠ Workflow.normalize_for_diff cur
            then some (Workflow.displayName p.2 p.1) else none) =
          some (Workflow.displayName p.2 p.1)
        rw [if_pos hne]
    · simp only [Workflow.diff_named_entities, pySortedBy, mem_pySorted,
        List.mem_filterMap]
      constructor
      · rintro ⟨p, hp, hf⟩
        cases hkey : alHasKey p.1 (Workflow.indexByName desired) with
        | true => rw [hkey] at hf; simp at hf
        | false =>
            rw [hkey] at hf
            rw [if_pos (by decide)] at hf
            injection hf with hf'
            exact ⟨p, hp, hkey, hf'⟩
      · rintro ⟨p, hp, hkey, rfl⟩
        refine ⟨p, hp, ?_⟩
        rw [hkey, if_pos (by decide)]
    · exact pySortedBy_pairwise pyLower _
    · exact pySortedBy_pairwise pyLower _
    · exact pySortedBy_pairwise pyLower _
  · refine ⟨fun n => ?_, fun n => ?_, fun n => ?_, ?_, ?_, ?_⟩
    · simp only [Helpers.diff_entities_by_name, pySortedBy, mem_pySorted,
        List.mem_filter, Bool.not_eq_true', id]
    · simp only [Helpers.diff_entities_by_name, pySortedBy, mem_pySorted,
        List.mem_filter, decide_eq_true_eq, id, and_assoc]
    · simp only [Helpers.diff_entities_by_name, pySortedBy, mem_pySorted,
        List.mem_filter, Bool.not_eq_true', id]
    · exact pySortedBy_pairwise id _
    · exact List.Pairwise.filter _ (pySortedBy_pairwise id _)
    · exact pySortedBy_pairwise id _

/-- Witness for C2 at the spec's own scenario: a tag present only in the
desired snapshot is classified `create` by the workflow diff. -/
theorem c2_diff_by_name_witness :
    "GA4 Event" ∈ (Workflow.diff_named_entities
        [[("name", Value.str "GA4 Config"), ("type", Value.str "gaawc")],
         [("name", Value.str "GA4 Event"), ("type", Value.str "gaawe")]]
        [[("name", Value.str "GA4 Config"), ("type", Value.str "gaawc")]]).create :=
  ((c2_diff_by_name
      [[("name", Value.str "GA4 Config"), ("type", Value.str "gaawc")],
       [("name", Value.str "GA4 Event"), ("type", Value.str "gaawe")]]
      [[("name", Value.str "GA4 Config"), ("type", Value.str "gaawc")]] none).1.1
    "GA4 Event").mpr
    ⟨("ga4 event", [("name", Value.str "GA4 Event"), ("type", Value.str "gaawe")]),
     by decide, by decide, by decide⟩

/-- **C5 counterexample** — a dry-run publish through the workflow layer is
not free of remote calls: it performs the workspace get-or-create
collaborator call (with `create_if_missing=True`) before checking the
dry-run flag. -/
theorem c5_counterexample_dry_run_contacts_workspace_resource :
    (Workflow.publish_from_workspace emptyWEnv "1" "2" "iac" "Release" "Notes" true).2 =
      [Op.getOrCreateWorkspace "1" "2" "iac" true] ∧
    [Op.getOrCreateWorkspace "1" "2" "iac" true] ≠ ([] : List Op) := by decide

/-- **C5 (amended)** — a dry-run publish returns the intent record (dry-run
flag, workspace path, version name) and never calls version creation or
publish, nor any entity mutation; the workflow layer still performs the
workspace get-or-create call (its only remote call), while the
container-layer `publish_workspace` makes no remote call at all. -/
theorem c5_publish_dry_run (env : Workflow.WEnv) (cenv : Container.CEnv)
    (a c wn w vn notes : String) :
    ((Workflow.publish_from_workspace env a c wn vn notes true).2.all
        (fun op => !op.isEntityMutation && !op.isCreateVersion &&
          !op.isPublishVersion) = true) ∧
    (∀ ws, Workflow.workspace_path_from_workspace_payload a c
        (env.getOrCreateWorkspaceResp a c wn true) = .ok ws →
      Workflow.publish_from_workspace env a c wn vn notes true =
        (.ok (.dict [("dryRun", .bool true), ("action", .str "publish"),
          ("workspacePath", .str ws), ("versionName", .str vn)]),
         [Op.getOrCreateWorkspace a c wn true])) ∧
    Container.publish_workspace cenv a c w vn notes true =
      (.ok (.dict [("dry_run", .bool true),
        ("workspacePath", .str (workspacePathOf a c w)),
        ("versionName", .str vn), ("notes", .str notes)]), []) := by
  refine ⟨?_, fun ws hws => ?_, rfl⟩
  · simp only [Workflow.publish_from_workspace, Workflow.get_workspace_path]
    cases h : Workflow.workspace_path_from_workspace_payload a c
        (env.getOrCreateWorkspaceResp a c wn true) with
    | error e =>
        simp [Op.isEntityMutation, Op.isCreateVersion, Op.isPublishVersion]
    | ok ws =>
        simp [Op.isEntityMutation, Op.isCreateVersion, Op.isPublishVersion]
  · simp only [Workflow.publish_from_workspace, Workflow.get_workspace_path, hws]
    rw [if_pos trivial]

/-- Witness for C5: the intent record and single-workspace-call trace at a
concrete environment. -/
theorem c5_publish_dry_run_witness :
    Workflow.publish_from_workspace emptyWEnv "1" "2" "iac" "Release" "Notes" true =
      (.ok (.dict [("dryRun", .bool true), ("action", .str "publish"),
        ("workspacePath", .str "accounts/1/containers/2/workspaces/1"),
        ("versionName", .str "Release")]),
       [Op.getOrCreateWorkspace "1" "2" "iac" true]) :=
  (c5_publish_dry_run emptyWEnv
      ⟨[], [], [], fun _ _ _ => [], fun _ => .null⟩ "1" "2" "iac" "1" "Release"
      "Notes").2.1
    "accounts/1/containers/2/workspaces/1" (by decide)

/-- **C6** — With delete-missing on and dry-run off, the applied deletes are
ordered by entity type: the operation trace is a tag-delete segment, then a
trigger-delete segment, then a variable-delete segment, in both layers.
Each type's missing set is current minus desired: the workflow layer
records as deleted exactly the current-index entries whose key is absent
from the desired index (tags, triggers and variables alike), and every
container-layer delete call targets a current entity of its type whose
trimmed name is absent from the desired name set. -/
theorem c6_reverse_dependency_delete_order :
    (∀ (ws : String) (s : Workflow.Summary)
       (varIdx dVarIdx trigIdx dTrigIdx tagIdx dTagIdx : List (String × Dict)),
      ∃ t g v,
        (Workflow.apply_deletes ws s false true varIdx dVarIdx trigIdx dTrigIdx
            tagIdx dTagIdx).2 = t ++ g ++ v ∧
        (∀ op ∈ t, op.isTagDelete = true) ∧
        (∀ op ∈ g, op.isTriggerDelete = true) ∧
        (∀ op ∈ v, op.isVariableDelete = true) ∧
        (Workflow.apply_deletes ws s false true varIdx dVarIdx trigIdx dTrigIdx
            tagIdx dTagIdx).1.tags.deleted =
          s.tags.deleted ++
            (tagIdx.filter (fun p => decide (p.1 ∉ alKeys dTagIdx))).map
              (fun p => Workflow.loopDisplay p.2 p.1) ∧
        (Workflow.apply_deletes ws s false true varIdx dVarIdx trigIdx dTrigIdx
            tagIdx dTagIdx).1.triggers.deleted =
          s.triggers.deleted ++
            (trigIdx.filter (fun p => decide (p.1 ∉ alKeys dTrigIdx))).map
              (fun p => Workflow.loopDisplay p.2 p.1) ∧
        (Workflow.apply_deletes ws s false true varIdx dVarIdx trigIdx dTrigIdx
            tagIdx dTagIdx).1.vars.deleted =
          s.vars.deleted ++
            (varIdx.filter (fun p => decide (p.1 ∉ alKeys dVarIdx))).map
              (fun p => Workflow.loopDisplay p.2 p.1)) ∧
    (∀ (cenv : Container.CEnv) (dTags dTrigs dVars : List Dict),
      ∃ t g v,
        (Container.delete_missing_entities cenv dTags dTrigs dVars false).2 =
            t ++ g ++ v ∧
        (∀ op ∈ t, op.isTagDelete = true) ∧
        (∀ op ∈ g, op.isTriggerDelete = true) ∧
        (∀ op ∈ v, op.isVariableDelete = true) ∧
        (∀ p, Op.deleteTag p ∈
            (Container.delete_missing_entities cenv dTags dTrigs dVars false).2 →
          ∃ e, e ∈ cenv.tags ∧
            Container.trimmedName e ∉ Container.desiredNameSet dTags ∧
            (alGet "path" e).getD .null = p) ∧
        (∀ p, Op.deleteTrigger p ∈
            (Container.delete_missing_entities cenv dTags dTrigs dVars false).2 →
          ∃ e, e ∈ cenv.triggers ∧
            Container.trimmedName e ∉ Container.desiredNameSet dTrigs ∧
            (alGet "path" e).getD .null = p) ∧
        (∀ p, Op.deleteVariable p ∈
            (Container.delete_missing_entities cenv dTags dTrigs dVars false).2 →
          ∃ e, e ∈ cenv.vars ∧
            Container.trimmedName e ∉ Container.desiredNameSet dVars ∧
            (alGet "path" e).getD .null = p)) := by
  constructor
  · intro ws s varIdx dVarIdx trigIdx dTrigIdx tagIdx dTagIdx
    refine ⟨(Workflow.applyDeleteLoop ws "tags" "tagId" Op.deleteTag false
        (alKeys dTagIdx) tagIdx).2,
      (Workflow.applyDeleteLoop ws "triggers" "triggerId" Op.deleteTrigger false
        (alKeys dTrigIdx) trigIdx).2,
      (Workflow.applyDeleteLoop ws "variables" "variableId" Op.deleteVariable false
        (alKeys dVarIdx) varIdx).2,
      rfl, ?_, ?_, ?_, ?_, ?_, ?_⟩
    · intro op hop
      obtain ⟨pth, rfl⟩ := Workflow.applyDeleteLoop_ops_kind _ _ _ _ _ _ op hop
      rfl
    · intro op hop
      obtain ⟨pth, rfl⟩ := Workflow.applyDeleteLoop_ops_kind _ _ _ _ _ _ op hop
      rfl
    · intro op hop
      obtain ⟨pth, rfl⟩ := Workflow.applyDeleteLoop_ops_kind _ _ _ _ _ _ op hop
      rfl
    · rw [← Workflow.applyDeleteLoop_deleted ws "tags" "tagId" Op.deleteTag false
        (alKeys dTagIdx) tagIdx]
      rfl
    · rw [← Workflow.applyDeleteLoop_deleted ws "triggers" "triggerId" Op.deleteTrigger false
        (alKeys dTrigIdx) trigIdx]
      rfl
    · rw [← Workflow.applyDeleteLoop_deleted ws "variables" "variableId" Op.deleteVariable false
        (alKeys dVarIdx) varIdx]
      rfl
  · intro cenv dTags dTrigs dVars
    obtain ⟨t, g, v, htrace, ht, hg, hv⟩ :=
      Container.delete_missing_entities_decomp cenv dTags dTrigs dVars
    refine ⟨t, g, v, htrace, ?_, ?_, ?_, ?_, ?_, ?_⟩
    · intro op hop; obtain ⟨e, -, -, rfl⟩ := ht op hop; rfl
    · intro op hop; obtain ⟨e, -, -, rfl⟩ := hg op hop; rfl
    · intro op hop; obtain ⟨e, -, -, rfl⟩ := hv op hop; rfl
    · intro p hp
      rw [htrace] at hp
      rcases List.mem_append.mp hp with hp' | hp''
      · rcases List.mem_append.mp hp' with hp1 | hp2
        · obtain ⟨e, hmem, hname, heq⟩ := ht _ hp1
          injection heq with heq'
          exact ⟨e, hmem, hname, heq'.symm⟩
        · obtain ⟨e, -, -, heq⟩ := hg _ hp2
          simp at heq
      · obtain ⟨e, -, -, heq⟩ := hv _ hp''
        simp at heq
    · intro p hp
      rw [htrace] at hp
      rcases List.mem_append.mp hp with hp' | hp''
      · rcases List.mem_append.mp hp' with hp1 | hp2
        · obtain ⟨e, -, -, heq⟩ := ht _ hp1
          simp at heq
        · obtain ⟨e, hmem, hname, heq⟩ := hg _ hp2
          injection heq with heq'
          exact ⟨e, hmem, hname, heq'.symm⟩
      · obtain ⟨e, -, -, heq⟩ := hv _ hp''
        simp at heq
    · intro p hp
      rw [htrace] at hp
      rcases List.mem_append.mp hp with hp' | hp''
      · rcases List.mem_append.mp hp' with hp1 | hp2
        · obtain ⟨e, -, -, heq⟩ := ht _ hp1
          simp at heq
        · obtain ⟨e, -, -, heq⟩ := hg _ hp2
          simp at heq
      · obtain ⟨e, hmem, hname, heq⟩ := hv _ hp''
        injection heq with heq'
        exact ⟨e, hmem, hname, heq'.symm⟩

/-- Witness for C6: the scenario of the repository's own delete-order test —
one stale tag, trigger and variable each — yields the trace tag-delete,
then trigger-delete, then variable-delete. -/
theorem c6_reverse_dependency_delete_order_witness :
    (Workflow.apply_deletes "ws" (Workflow.init_summary "ws" false true) false true
        [("old var", [("name", Value.str "Old Var"), ("path", Value.str "ws/variables/1")])] []
        [("old trigger", [("name", Value.str "Old Trigger"), ("path", Value.str "ws/triggers/2")])] []
        [("old tag", [("name", Value.str "Old Tag"), ("path", Value.str "ws/tags/3")])] []).2 =
      [Op.deleteTag (.str "ws/tags/3"), Op.deleteTrigger (.str "ws/triggers/2"),
       Op.deleteVariable (.str "ws/variables/1")] := by
  obtain ⟨t, g, v, htrace, -, -, -, -, -, -⟩ :=
    c6_reverse_dependency_delete_order.1 "ws" (Workflow.init_summary "ws" false true)
      [("old var", [("name", Value.str "Old Var"), ("path", Value.str "ws/variables/1")])] []
      [("old trigger", [("name", Value.str "Old Trigger"), ("path", Value.str "ws/triggers/2")])] []
      [("old tag", [("name", Value.str "Old Tag"), ("path", Value.str "ws/tags/3")])] []
  exact htrace.symm ▸ (by decide : (Workflow.apply_deletes "ws"
      (Workflow.init_summary "ws" false true) false true
      [("old var", [("name", Value.str "Old Var"), ("path", Value.str "ws/variables/1")])] []
      [("old trigger", [("name", Value.str "Old Trigger"), ("path", Value.str "ws/triggers/2")])] []
      [("old tag", [("name", Value.str "Old Tag"), ("path", Value.str "ws/tags/3")])] []).2 =
    [Op.deleteTag (.str "ws/tags/3"), Op.deleteTrigger (.str "ws/triggers/2"),
     Op.deleteVariable (.str "ws/variables/1")])

/-- Counterexample for C7: a whitespace-only name in `firingTriggerNames`
does not resolve in the (empty) trigger map, yet no error is raised - the
resolver silently skips it, and the tag resolves successfully with
`firingTriggerId` set to the empty list. -/
theorem c7_counterexample_whitespace_name_skipped :
    alGet (pyNorm "   ") ([] : List (String × String)) = none ∧
    Workflow.tag_with_resolved_triggers
        [("name", Value.str "T"), ("firingTriggerNames", Value.list [Value.str "   "])]
        [] =
      .ok [("name", Value.str "T"), ("firingTriggerId", Value.list [])] := by decide

/-- **C7** — For a tag carrying a name-list reference field
(`firingTriggerNames` or `blockingTriggerNames` as a list, the matching
id-list key absent), the resolver string-coerces each listed name and looks
it up trimmed and case-insensitively in the trigger name→id map; a
whitespace-only name is silently skipped (contributing no id and raising no
error); any non-whitespace name without a non-empty mapped id raises the
error naming both the referencing tag and that missing trigger name (label
`trigger` for the firing role, `blocking trigger` for the blocking role);
and on success the output tag carries the role id-list field set to exactly
the resolved ids of the non-whitespace names, in order, with the name-list
key removed - for each role separately and for both roles together. -/
theorem c7_reference_resolution
    (tag : Dict) (m : List (String × String)) :
    (∀ fns : List Value,
      alGet "firingTriggerNames" tag = some (.list fns) →
      alHasKey "firingTriggerId" tag = false →
      alHasKey "blockingTriggerNames" tag = false →
      (∀ s ∈ fns.map pyStr, pyStrip s ≠ "" →
        ∃ tid, alGet (pyNorm s) m = some tid ∧ tid ≠ "") →
      ∃ out, Workflow.tag_with_resolved_triggers tag m = .ok out ∧
        alGet "firingTriggerId" out =
          some (.list (((fns.map pyStr).filter (fun s => decide (pyStrip s ≠ ""))).map
            (fun s => Value.str ((alGet (pyNorm s) m).getD "")))) ∧
        alHasKey "firingTriggerNames" out = false) ∧
    (∀ fns : List Value,
      alGet "firingTriggerNames" tag = some (.list fns) →
      alHasKey "firingTriggerId" tag = false →
      (∃ s ∈ fns.map pyStr, pyStrip s ≠ "" ∧
        (alGet (pyNorm s) m = none ∨ alGet (pyNorm s) m = some "")) →
      ∃ s ∈ fns.map pyStr,
        Workflow.tag_with_resolved_triggers tag m =
          .error (Workflow.missingTriggerMsg (Workflow.loopDisplay tag "?") "trigger" s)) ∧
    (∀ bns : List Value,
      alGet "blockingTriggerNames" tag = some (.list bns) →
      alHasKey "blockingTriggerId" tag = false →
      alHasKey "firingTriggerNames" tag = false →
      (∀ s ∈ bns.map pyStr, pyStrip s ≠ "" →
        ∃ tid, alGet (pyNorm s) m = some tid ∧ tid ≠ "") →
      ∃ out, Workflow.tag_with_resolved_triggers tag m = .ok out ∧
        alGet "blockingTriggerId" out =
          some (.list (((bns.map pyStr).filter (fun s => decide (pyStrip s ≠ ""))).map
            (fun s => Value.str ((alGet (pyNorm s) m).getD "")))) ∧
        alHasKey "blockingTriggerNames" out = false) ∧
    (∀ bns : List Value,
      alGet "blockingTriggerNames" tag = some (.list bns) →
      alHasKey "blockingTriggerId" tag = false →
      alHasKey "firingTriggerNames" tag = false →
      (∃ s ∈ bns.map pyStr, pyStrip s ≠ "" ∧
        (alGet (pyNorm s) m = none ∨ alGet (pyNorm s) m = some "")) →
      ∃ s ∈ bns.map pyStr,
        Workflow.tag_with_resolved_triggers tag m =
          .error (Workflow.missingTriggerMsg (Workflow.loopDisplay tag "?")
            "blocking trigger" s)) ∧
    (∀ fns bns : List Value,
      alGet "firingTriggerNames" tag = some (.list fns) →
      alGet "blockingTriggerNames" tag = some (.list bns) →
      alHasKey "firingTriggerId" tag = false →
      alHasKey "blockingTriggerId" tag = false →
      (∀ s ∈ fns.map pyStr, pyStrip s ≠ "" →
        ∃ tid, alGet (pyNorm s) m = some tid ∧ tid ≠ "") →
      (∀ s ∈ bns.map pyStr, pyStrip s ≠ "" →
        ∃ tid, alGet (pyNorm s) m = some tid ∧ tid ≠ "") →
      ∃ out, Workflow.tag_with_resolved_triggers tag m = .ok out ∧
        alGet "firingTriggerId" out =
          some (.list (((fns.map pyStr).filter (fun s => decide (pyStrip s ≠ ""))).map
            (fun s => Value.str ((alGet (pyNorm s) m).getD "")))) ∧
        alGet "blockingTriggerId" out =
          some (.list (((bns.map pyStr).filter (fun s => decide (pyStrip s ≠ ""))).map
            (fun s => Value.str ((alGet (pyNorm s) m).getD "")))) ∧
        alHasKey "firingTriggerNames" out = false ∧
        alHasKey "blockingTriggerNames" out = false) := by
  refine ⟨?_, ?_, ?_, ?_, ?_⟩
  · intro fns h1 h2 h3 hall
    have hfboth : (alHasKey "firingTriggerNames" tag && alHasKey "firingTriggerId" tag)
        = false := by rw [h2, Bool.and_false]
    have hres := Workflow.resolve_trigger_ids_ok (Workflow.loopDisplay tag "?") "trigger"
      m (fns.map pyStr) hall
    simp only [Workflow.loopDisplay] at hres
    refine ⟨alErase (alInsert tag "firingTriggerId"
      (Value.list ((((fns.map pyStr).filter (fun s => decide (pyStrip s ≠ ""))).map
        (fun s => (alGet (pyNorm s) m).getD "")).map Value.str)))
      "firingTriggerNames", ?_, ?_, ?_⟩
    · simp only [Workflow.tag_with_resolved_triggers, hfboth, h1, hres, Except.map]
      rw [if_neg (by simp)]
      have hbn : alHasKey "blockingTriggerNames"
          (alErase (alInsert tag "firingTriggerId"
            (Value.list ((((fns.map pyStr).filter (fun s => decide (pyStrip s ≠ ""))).map
              (fun s => (alGet (pyNorm s) m).getD "")).map Value.str)))
            "firingTriggerNames") = false := by
        rw [alHasKey_alErase_ne _ _ _ (by decide),
          alHasKey_alInsert_ne _ _ _ _ (by decide), h3]
      have hbg : alGet "blockingTriggerNames"
          (alErase (alInsert tag "firingTriggerId"
            (Value.list ((((fns.map pyStr).filter (fun s => decide (pyStrip s ≠ ""))).map
              (fun s => (alGet (pyNorm s) m).getD "")).map Value.str)))
            "firingTriggerNames") = none :=
        (alGet_eq_none_iff_not_hasKey _ _).mpr hbn
      rw [if_neg (by rw [hbn, Bool.false_and]; simp), hbg]
    · rw [alGet_alErase_ne _ _ _ (by decide), alGet_alInsert_self]
      simp [List.map_map, Function.comp]
    · exact alHasKey_alErase_self _ _
  · intro fns h1 h2 hmiss
    have hfboth : (alHasKey "firingTriggerNames" tag && alHasKey "firingTriggerId" tag)
        = false := by rw [h2, Bool.and_false]
    obtain ⟨s, hsmem, hs, herr⟩ := Workflow.resolve_trigger_ids_err
      (Workflow.loopDisplay tag "?") "trigger" m (fns.map pyStr) hmiss
    refine ⟨s, hsmem, ?_⟩
    simp only [Workflow.loopDisplay] at herr
    simp only [Workflow.tag_with_resolved_triggers, hfboth, h1, herr, Except.map,
      Workflow.loopDisplay]
    rw [if_neg (by simp)]
  · intro bns hb1 hb2 hb3 hall
    have hfboth : (alHasKey "firingTriggerNames" tag && alHasKey "firingTriggerId" tag)
        = false := by rw [hb3, Bool.false_and]
    have hfg : alGet "firingTriggerNames" tag = none :=
      (alGet_eq_none_iff_not_hasKey _ _).mpr hb3
    have hres := Workflow.resolve_trigger_ids_ok (Workflow.loopDisplay tag "?")
      "blocking trigger" m (bns.map pyStr) hall
    simp only [Workflow.loopDisplay] at hres
    refine ⟨alErase (alInsert tag "blockingTriggerId"
      (Value.list ((((bns.map pyStr).filter (fun s => decide (pyStrip s ≠ ""))).map
        (fun s => (alGet (pyNorm s) m).getD "")).map Value.str)))
      "blockingTriggerNames", ?_, ?_, ?_⟩
    · simp only [Workflow.tag_with_resolved_triggers, hfboth, hfg, hb1, hres, Except.map]
      rw [if_neg (by simp), if_neg (by rw [hb2, Bool.and_false]; simp)]
    · rw [alGet_alErase_ne _ _ _ (by decide), alGet_alInsert_self]
      simp [List.map_map, Function.comp]
    · exact alHasKey_alErase_self _ _
  · intro bns hb1 hb2 hb3 hmiss
    have hfboth : (alHasKey "firingTriggerNames" tag && alHasKey "firingTriggerId" tag)
        = false := by rw [hb3, Bool.false_and]
    have hfg : alGet "firingTriggerNames" tag = none :=
      (alGet_eq_none_iff_not_hasKey _ _).mpr hb3
    obtain ⟨s, hsmem, hs, herr⟩ := Workflow.resolve_trigger_ids_err
      (Workflow.loopDisplay tag "?") "blocking trigger" m (bns.map pyStr) hmiss
    refine ⟨s, hsmem, ?_⟩
    simp only [Workflow.loopDisplay] at herr
    simp only [Workflow.tag_with_resolved_triggers, hfboth, hfg, hb1, herr, Except.map,
      Workflow.loopDisplay]
    rw [if_neg (by simp), if_neg (by rw [hb2, Bool.and_false]; simp)]
  · intro fns bns hc1 hc2 hc3 hc4 hallF hallB
    have hfboth : (alHasKey "firingTriggerNames" tag && alHasKey "firingTriggerId" tag)
        = false := by rw [hc3, Bool.and_false]
    have hresF := Workflow.resolve_trigger_ids_ok (Workflow.loopDisplay tag "?") "trigger"
      m (fns.map pyStr) hallF
    have hresB := Workflow.resolve_trigger_ids_ok (Workflow.loopDisplay tag "?")
      "blocking trigger" m (bns.map pyStr) hallB
    simp only [Workflow.loopDisplay] at hresF hresB
    have hbk1 : alHasKey "blockingTriggerId"
        (alErase (alInsert tag "firingTriggerId"
          (Value.list ((((fns.map pyStr).filter (fun s => decide (pyStrip s ≠ ""))).map
            (fun s => (alGet (pyNorm s) m).getD "")).map Value.str)))
          "firingTriggerNames") = false := by
      rw [alHasKey_alErase_ne _ _ _ (by decide),
        alHasKey_alInsert_ne _ _ _ _ (by decide), hc4]
    have hbg1 : alGet "blockingTriggerNames"
        (alErase (alInsert tag "firingTriggerId"
          (Value.list ((((fns.map pyStr).filter (fun s => decide (pyStrip s ≠ ""))).map
            (fun s => (alGet (pyNorm s) m).getD "")).map Value.str)))
          "firingTriggerNames") = some (.list bns) := by
      rw [alGet_alErase_ne _ _ _ (by decide),
        alGet_alInsert_ne _ _ _ _ (by decide), hc2]
    refine ⟨alErase (alInsert
      (alErase (alInsert tag "firingTriggerId"
        (Value.list ((((fns.map pyStr).filter (fun s => decide (pyStrip s ≠ ""))).map
          (fun s => (alGet (pyNorm s) m).getD "")).map Value.str)))
        "firingTriggerNames")
      "blockingTriggerId"
      (Value.list ((((bns.map pyStr).filter (fun s => decide (pyStrip s ≠ ""))).map
        (fun s => (alGet (pyNorm s) m).getD "")).map Value.str)))
      "blockingTriggerNames", ?_, ?_, ?_, ?_, ?_⟩
    · simp only [Workflow.tag_with_resolved_triggers, hfboth, hc1, hresF, Except.map]
      rw [if_neg (by simp)]
      rw [if_neg (by rw [hbk1, Bool.and_false]; simp)]
      simp only [hbg1, hresB, Except.map]
    · rw [alGet_alErase_ne _ _ _ (by decide), alGet_alInsert_ne _ _ _ _ (by decide),
        alGet_alErase_ne _ _ _ (by decide), alGet_alInsert_self]
      simp [List.map_map, Function.comp]
    · rw [alGet_alErase_ne _ _ _ (by decide), alGet_alInsert_self]
      simp [List.map_map, Function.comp]
    · rw [alHasKey_alErase_ne _ _ _ (by decide), alHasKey_alInsert_ne _ _ _ _ (by decide)]
      exact alHasKey_alErase_self _ _
    · exact alHasKey_alErase_self _ _

/-- Witness for C7: with map t ↦ 5, a firing name-list resolves (the
whitespace-only entry silently skipped), a blocking name-list resolves, a
tag with both name-lists resolves both, and an unresolvable name raises the
role-labelled error naming tag and trigger. -/
theorem c7_reference_resolution_witness :
    (∃ out, Workflow.tag_with_resolved_triggers
        [("name", Value.str "New Tag"),
         ("firingTriggerNames", Value.list [Value.str "T", Value.str "   "])]
        [("t", "5")] = .ok out ∧
      alGet "firingTriggerId" out = some (.list [Value.str "5"]) ∧
      alHasKey "firingTriggerNames" out = false) ∧
    (∃ out, Workflow.tag_with_resolved_triggers
        [("name", Value.str "Block Tag"),
         ("blockingTriggerNames", Value.list [Value.str "T"])]
        [("t", "5")] = .ok out ∧
      alGet "blockingTriggerId" out = some (.list [Value.str "5"]) ∧
      alHasKey "blockingTriggerNames" out = false) ∧
    (∃ out, Workflow.tag_with_resolved_triggers
        [("name", Value.str "Full Tag"),
         ("firingTriggerNames", Value.list [Value.str "T"]),
         ("blockingTriggerNames", Value.list [Value.str "T"])]
        [("t", "5")] = .ok out ∧
      alGet "firingTriggerId" out = some (.list [Value.str "5"]) ∧
      alGet "blockingTriggerId" out = some (.list [Value.str "5"])) ∧
    (∃ s ∈ [Value.str "Missing"].map pyStr,
      Workflow.tag_with_resolved_triggers
        [("name", Value.str "Bad Tag"),
         ("firingTriggerNames", Value.list [Value.str "Missing"])]
        [("t", "5")] =
          .error (Workflow.missingTriggerMsg
            (Workflow.loopDisplay
              [("name", Value.str "Bad Tag"),
               ("firingTriggerNames", Value.list [Value.str "Missing"])] "?") "trigger" s)) ∧
    (∃ s ∈ [Value.str "Missing"].map pyStr,
      Workflow.tag_with_resolved_triggers
        [("name", Value.str "Bad Block Tag"),
         ("blockingTriggerNames", Value.list [Value.str "Missing"])]
        [("t", "5")] =
          .error (Workflow.missingTriggerMsg
            (Workflow.loopDisplay
              [("name", Value.str "Bad Block Tag"),
               ("blockingTriggerNames", Value.list [Value.str "Missing"])] "?")
            "blocking trigger" s)) := by
  refine ⟨?_, ?_, ?_, ?_, ?_⟩
  · obtain ⟨out, hout, hget, hkey⟩ := (c7_reference_resolution
      [("name", Value.str "New Tag"),
       ("firingTriggerNames", Value.list [Value.str "T", Value.str "   "])]
      [("t", "5")]).1 [Value.str "T", Value.str "   "]
      (by decide) (by decide) (by decide)
      (by
        intro s hs hne
        simp only [List.map_cons, List.map_nil, List.mem_cons, List.not_mem_nil,
          or_false] at hs
        rcases hs with rfl | rfl
        · exact ⟨"5", by decide, by decide⟩
        · exact absurd (by decide) hne)
    exact ⟨out, hout, by rw [hget]; decide, hkey⟩
  · obtain ⟨out, hout, hget, hkey⟩ := (c7_reference_resolution
      [("name", Value.str "Block Tag"),
       ("blockingTriggerNames", Value.list [Value.str "T"])]
      [("t", "5")]).2.2.1 [Value.str "T"]
      (by decide) (by decide) (by decide)
      (by
        intro s hs hne
        simp only [List.map_cons, List.map_nil, List.mem_cons, List.not_mem_nil,
          or_false] at hs
        subst hs
        exact ⟨"5", by decide, by decide⟩)
    exact ⟨out, hout, by rw [hget]; decide, hkey⟩
  · obtain ⟨out, hout, hgf, hgb, hkf, hkb⟩ := (c7_reference_resolution
      [("name", Value.str "Full Tag"),
       ("firingTriggerNames", Value.list [Value.str "T"]),
       ("blockingTriggerNames", Value.list [Value.str "T"])]
      [("t", "5")]).2.2.2.2 [Value.str "T"] [Value.str "T"]
      (by decide) (by decide) (by decide) (by decide)
      (by
        intro s hs hne
        simp only [List.map_cons, List.map_nil, List.mem_cons, List.not_mem_nil,
          or_false] at hs
        subst hs
        exact ⟨"5", by decide, by decide⟩)
      (by
        intro s hs hne
        simp only [List.map_cons, List.map_nil, List.mem_cons, List.not_mem_nil,
          or_false] at hs
        subst hs
        exact ⟨"5", by decide, by decide⟩)
    exact ⟨out, hout, by rw [hgf]; decide, by rw [hgb]; decide⟩
  · exact (c7_reference_resolution
      [("name", Value.str "Bad Tag"),
       ("firingTriggerNames", Value.list [Value.str "Missing"])]
      [("t", "5")]).2.1 [Value.str "Missing"]
      (by decide) (by decide)
      ⟨"Missing", by decide, by decide, Or.inl (by decide)⟩
  · exact (c7_reference_resolution
      [("name", Value.str "Bad Block Tag"),
       ("blockingTriggerNames", Value.list [Value.str "Missing"])]
      [("t", "5")]).2.2.2.1 [Value.str "Missing"]
      (by decide) (by decide) (by decide)
      ⟨"Missing", by decide, by decide, Or.inl (by decide)⟩

/-- **C8** — A tag presenting both the name-list and the id-list form for the
same role (firing or blocking) is rejected by reference resolution, and the
tag-sync loop iteration for that tag produces the error with an empty
operation list: no remote call is made for that tag. -/
theorem c8_ambiguous_dual_specification
    (ws : String) (dry_run update_existing : Bool)
    (tag_by_name : List (String × Dict)) (m : List (String × String))
    (k : String) (tag : Dict) (s : Workflow.EntitySummary)
    (h : (alHasKey "firingTriggerNames" tag = true ∧
            alHasKey "firingTriggerId" tag = true) ∨
         (alHasKey "blockingTriggerNames" tag = true ∧
            alHasKey "blockingTriggerId" tag = true)) :
    ∃ e, Workflow.tag_with_resolved_triggers tag m = .error e ∧
      Workflow.syncTagStep ws dry_run update_existing tag_by_name m k tag s =
        (.error e, []) := by
  have hmain : ∃ e, Workflow.tag_with_resolved_triggers tag m = .error e := by
    rcases h with ⟨hfn, hfi⟩ | ⟨hbn, hbi⟩
    · refine ⟨Workflow.bothFiringMsg (Workflow.loopDisplay tag "?"), ?_⟩
      simp only [Workflow.tag_with_resolved_triggers, hfn, hfi, Bool.and_self,
        Workflow.loopDisplay]
      rw [if_pos trivial]
    · exact Workflow.tag_resolve_blocking_err tag m hbn hbi
  obtain ⟨e, he⟩ := hmain
  refine ⟨e, he, ?_⟩
  simp only [Workflow.syncTagStep, he]

/-- Witness for C8: a tag with both `firingTriggerNames` and
`firingTriggerId` errors out of its sync iteration with no operations. -/
theorem c8_ambiguous_dual_specification_witness :
    ∃ e, Workflow.tag_with_resolved_triggers
        [("name", Value.str "T"), ("firingTriggerNames", Value.list [Value.str "A"]),
         ("firingTriggerId", Value.list [Value.str "1"])] [] = .error e ∧
      Workflow.syncTagStep "ws" false true [] [] "t"
        [("name", Value.str "T"), ("firingTriggerNames", Value.list [Value.str "A"]),
         ("firingTriggerId", Value.list [Value.str "1"])] .init = (.error e, []) :=
  c8_ambiguous_dual_specification "ws" false true [] [] "t" _ .init
    (Or.inl ⟨by decide, by decide⟩)

/-- **C10** — In the delete-missing phase outside dry-run, a current entity
absent from the desired index whose record yields no entity path (neither a
non-empty `path` nor a non-empty id field, i.e.
`_entity_path_from_workspace` returns `None`) still has its display name
appended to the summary's deleted list, while no delete call is issued for
it: the loop records strictly more deleted names than delete operations,
and in `_apply_deletes` the name lands in the summary's tag bucket. -/
theorem c10_deleted_without_delete_call :
    (∀ (ws coll id_key : String) (mkOp : Value → Op) (names : List String)
       (idx : List (String × Dict)) (k : String) (e : Dict),
      (k, e) ∈ idx → k ∉ names →
      Workflow.entity_path_from_workspace ws coll e id_key = none →
      Workflow.loopDisplay e k ∈
          (Workflow.applyDeleteLoop ws coll id_key mkOp false names idx).1 ∧
        (Workflow.applyDeleteLoop ws coll id_key mkOp false names idx).2.length <
          (Workflow.applyDeleteLoop ws coll id_key mkOp false names idx).1.length) ∧
    (∀ (ws : String) (s : Workflow.Summary)
       (varIdx dVarIdx trigIdx dTrigIdx tagIdx dTagIdx : List (String × Dict))
       (k : String) (e : Dict),
      (k, e) ∈ tagIdx → k ∉ alKeys dTagIdx →
      Workflow.entity_path_from_workspace ws "tags" e "tagId" = none →
      Workflow.loopDisplay e k ∈
        (Workflow.apply_deletes ws s false true varIdx dVarIdx trigIdx dTrigIdx
          tagIdx dTagIdx).1.tags.deleted) := by
  refine ⟨fun ws coll id_key mkOp names idx k e hmem hnd hpath =>
    Workflow.applyDeleteLoop_ghost ws coll id_key mkOp names idx k e hmem hnd hpath,
    fun ws s varIdx dVarIdx trigIdx dTrigIdx tagIdx dTagIdx k e hmem hnd hpath => ?_⟩
  have h := (Workflow.applyDeleteLoop_ghost ws "tags" "tagId" Op.deleteTag
    (alKeys dTagIdx) tagIdx k e hmem hnd hpath).1
  rw [Workflow.apply_deletes]
  simp only [Bool.not_true, Bool.false_eq_true, if_false]
  exact List.mem_append_right _ h

/-- Witness for C10: a current tag `Ghost` with no path and no id is
reported deleted while zero delete calls are recorded. -/
theorem c10_deleted_without_delete_call_witness :
    Workflow.loopDisplay [("name", Value.str "Ghost")] "ghost" ∈
        (Workflow.applyDeleteLoop "ws" "tags" "tagId" Op.deleteTag false []
          [("ghost", [("name", Value.str "Ghost")])]).1 ∧
      (Workflow.applyDeleteLoop "ws" "tags" "tagId" Op.deleteTag false []
          [("ghost", [("name", Value.str "Ghost")])]).2.length <
        (Workflow.applyDeleteLoop "ws" "tags" "tagId" Op.deleteTag false []
          [("ghost", [("name", Value.str "Ghost")])]).1.length :=
  c10_deleted_without_delete_call.1 "ws" "tags" "tagId" Op.deleteTag []
    [("ghost", [("name", Value.str "Ghost")])] "ghost" [("name", Value.str "Ghost")]
    (List.mem_cons_self _ _) (List.not_mem_nil _) (by decide)

/-- **C9** — For all current and desired values, the update-body merge
(`_merge_desired_into_current`) satisfies: merging two dicts is the entry
loop `mergeKvs`; a desired key holding explicit null is set to null in the
result (not dropped); a desired key holding a sequence replaces the current
value wholesale; a desired key holding a mapping merges recursively with
the current mapping under that key; and every current key not mentioned in
the desired mapping is carried over unchanged. -/
theorem c9_deep_merge_semantics (c d : List (String × Value)) (hd : (alKeys d).Nodup) :
    Workflow.merge_desired_into_current (.dict c) (.dict d) =
        .dict (Workflow.mergeKvs c d) ∧
    (∀ k, alGet k d = some Value.null →
        alGet k (Workflow.mergeKvs c d) = some Value.null) ∧
    (∀ k xs, alGet k d = some (Value.list xs) →
        alGet k (Workflow.mergeKvs c d) = some (Value.list xs)) ∧
    (∀ k dv cv, alGet k d = some (Value.dict dv) → alGet k c = some (Value.dict cv) →
        alGet k (Workflow.mergeKvs c d) =
          some (Workflow.merge_desired_into_current (.dict cv) (.dict dv))) ∧
    (∀ k, alHasKey k d = false → alGet k (Workflow.mergeKvs c d) = alGet k c) := by
  refine ⟨rfl, fun k h => ?_, fun k xs h => ?_, fun k dv cv h hc => ?_,
    fun k h => Workflow.mergeKvs_lookup_not_hasKey d c k h⟩
  · rw [Workflow.mergeKvs_lookup d c k _ hd h, if_pos rfl]
  · rw [Workflow.mergeKvs_lookup d c k _ hd h, if_neg (by simp),
      Workflow.merge_list]
  · rw [Workflow.mergeKvs_lookup d c k _ hd h, if_neg (by simp), hc]
    rfl

/-- **C3 counterexample** — the helpers-layer canonicalizer does not preserve
the order of a scalar-only sequence: `[2, 1]` comes back sorted. -/
theorem c3_counterexample_scalar_list_reordered :
    Helpers.canonicalize [] (.list [Value.int 2, Value.int 1]) =
      .list [Value.int 1, Value.int 2] ∧
    Value.list [Value.int 1, Value.int 2] ≠ Value.list [Value.int 2, Value.int 1] := by
  decide

/-- **C3 (amended)** — the workflow-layer canonicalizer `_stable_jsonish`
behaves as claimed: after canonicalizing each element, an all-mapping
sequence is sorted by the `repr` sort key (a permutation of the
canonicalized elements, ascending by serialized representation), and a
sequence with at least one non-mapping element keeps its original order;
the helpers-layer `_canonicalize`, however, sorts every sequence by its
JSON-serialized sort key regardless of element kinds. -/
theorem c3_sequence_canonicalization :
    (∀ xs : List Value, (Workflow.stableList xs).all Value.isDict = true →
      Workflow.stable_jsonish (.list xs) =
          .list (pySortedBy pyRepr (Workflow.stableList xs)) ∧
        List.Perm (pySortedBy pyRepr (Workflow.stableList xs)) (Workflow.stableList xs) ∧
        (pySortedBy pyRepr (Workflow.stableList xs)).Pairwise
          (fun a b => strLe (pyRepr a) (pyRepr b) = true)) ∧
    (∀ xs : List Value, (Workflow.stableList xs).all Value.isDict = false →
      Workflow.stable_jsonish (.list xs) = .list (Workflow.stableList xs)) ∧
    (∀ (ro : List String) (xs : List Value),
      Helpers.canonicalize ro (.list xs) =
          .list (pySortedBy jsonDumps (Helpers.canonicalizeList ro xs)) ∧
        List.Perm (pySortedBy jsonDumps (Helpers.canonicalizeList ro xs))
          (Helpers.canonicalizeList ro xs) ∧
        (pySortedBy jsonDumps (Helpers.canonicalizeList ro xs)).Pairwise
          (fun a b => strLe (jsonDumps a) (jsonDumps b) = true)) := by
  refine ⟨fun xs h => ?_, fun xs h => ?_, fun ro xs => ?_⟩
  · have heq : Workflow.stable_jsonish (.list xs) =
        if (Workflow.stableList xs).all Value.isDict
        then Value.list (pySortedBy pyRepr (Workflow.stableList xs))
        else Value.list (Workflow.stableList xs) := rfl
    exact ⟨heq.trans (if_pos h), pySortedBy_perm _ _, pySortedBy_pairwise _ _⟩
  · have heq : Workflow.stable_jsonish (.list xs) =
        if (Workflow.stableList xs).all Value.isDict
        then Value.list (pySortedBy pyRepr (Workflow.stableList xs))
        else Value.list (Workflow.stableList xs) := rfl
    exact heq.trans (if_neg (by simp [h]))
  · exact ⟨rfl, pySortedBy_perm _ _, pySortedBy_pairwise _ _⟩

/-- Witness for C3 at concrete sequences: a mixed scalar list keeps its
order; an all-dict list is sorted. -/
theorem c3_sequence_canonicalization_witness :
    ((Workflow.stableList [Value.int 2, Value.int 1]).all Value.isDict = false) ∧
    Workflow.stable_jsonish (.list [Value.int 2, Value.int 1]) =
      .list (Workflow.stableList [Value.int 2, Value.int 1]) ∧
    ((Workflow.stableList [Value.dict [("b", Value.int 1)],
        Value.dict [("a", Value.int 2)]]).all Value.isDict = true) ∧
    Workflow.stable_jsonish (.list [Value.dict [("b", Value.int 1)],
        Value.dict [("a", Value.int 2)]]) =
      .list (pySortedBy pyRepr (Workflow.stableList [Value.dict [("b", Value.int 1)],
        Value.dict [("a", Value.int 2)]])) :=
  ⟨by decide,
   c3_sequence_canonicalization.2.1 _ (by decide),
   by decide,
   (c3_sequence_canonicalization.1 _ (by decide)).1⟩

/-- Witness for C9 at a concrete merge: explicit null kept, sequence
replaced wholesale, nested dicts merged, unmentioned key carried over. -/
theorem c9_deep_merge_semantics_witness :
    alGet "a" (Workflow.mergeKvs
        [("a", Value.int 1), ("l", Value.list [Value.int 1]), ("keep", Value.int 7)]
        [("a", Value.null), ("l", Value.list [Value.int 2])]) = some Value.null ∧
    alGet "l" (Workflow.mergeKvs
        [("a", Value.int 1), ("l", Value.list [Value.int 1]), ("keep", Value.int 7)]
        [("a", Value.null), ("l", Value.list [Value.int 2])]) =
      some (Value.list [Value.int 2]) ∧
    alGet "keep" (Workflow.mergeKvs
        [("a", Value.int 1), ("l", Value.list [Value.int 1]), ("keep", Value.int 7)]
        [("a", Value.null), ("l", Value.list [Value.int 2])]) = some (Value.int 7) :=
  ⟨(c9_deep_merge_semantics _ _ (by decide)).2.1 "a" (by decide),
   (c9_deep_merge_semantics _ _ (by decide)).2.2.1 "l" [Value.int 2] (by decide),
   ((c9_deep_merge_semantics _ _ (by decide)).2.2.2.2 "keep" (by decide)).trans (by decide)⟩

end GTM
